import Mathlib

/-!
The refresh / cache / consistency subsystem of gobcv.

A shallow embedding of the Go sources under `internal/` and theorems about it.

Conventions of the embedding.

* An instant (`time.Time`) is an integer count of nanoseconds, a `time.Duration` likewise.
  Every function that reads the clock (`time.Now()`, `time.Since`) takes the instant it
  reads as the argument `now`.  A handler call is taken to be instantaneous: all clock
  reads of one call return the same `now`.
* A Go `map[string]T` is an association list without duplicate keys (`AList`); the order
  of the list stands for the (unspecified) iteration order of the map.
* A Go `error` is `Option String`; `none` is the `nil` error.
* The mutexes are not modelled: every method is one atomic step.  The goroutine that
  `Get` and `Exists` start on an expired entry is not run by the method; the method
  reports the key whose removal it scheduled.  The one place where calls overlap under
  the shared read lock and write, the counter increment of `Get`, is also given in two
  halves (`MemoryCache.getLoad`, `MemoryCache.getStore`).
* `float64` is modelled by its IEEE 754 binary64 fields.  The program never does
  arithmetic on a rate: it compares it with zero, and serialises it.
-/

/-! ## time -/

/-- An instant, in nanoseconds. -/
abbrev Time := Int

/-- A `time.Duration`: a signed count of nanoseconds. -/
abbrev Duration := Int

/-- The constant `time.Minute`. -/
def time.Minute : Duration := 60 * 1000000000

/-- The largest `time.Duration` (`1<<63 - 1`). -/
def time.maxDuration : Duration := 9223372036854775807

/-- The smallest `time.Duration` (`-1 << 63`). -/
def time.minDuration : Duration := -9223372036854775808

/-- The method `Time.Sub`: the duration `t - u`, saturated to the range of `Duration`. -/
def time.Sub (t u : Time) : Duration :=
  if t - u > time.maxDuration then time.maxDuration
  else if t - u < time.minDuration then time.minDuration
  else t - u

/-- The function `time.Since(t)`, that is `time.Now().Sub(t)`. -/
def time.Since (now t : Time) : Duration := time.Sub now t

/-- A Go `error` value; `none` is `nil`. -/
abbrev error := Option String

/-! ## float64 -/

/-- An IEEE 754 binary64 value, by its three fields. -/
structure float64 where
  sign : Bool
  exponent : Fin 2048
  fraction : Fin 4503599627370496
  deriving DecidableEq

/-- The test `math.IsNaN`. -/
def float64.IsNaN (x : float64) : Bool := x.exponent.val == 2047 && x.fraction.val != 0

/-- The test `math.IsInf(x, 0)`. -/
def float64.IsInf (x : float64) : Bool := x.exponent.val == 2047 && x.fraction.val == 0

/-- Either of the two zeros. -/
def float64.isZero (x : float64) : Bool := x.exponent.val == 0 && x.fraction.val == 0

/-- The Go comparison `x > 0`: false on NaN and on both zeros. -/
def float64.gtZero (x : float64) : Bool := !x.IsNaN && !x.isZero && !x.sign

/-- The Go comparison `x <= 0`: false on NaN. -/
def float64.leZero (x : float64) : Bool := !x.IsNaN && (x.isZero || x.sign)

/-- The value `+Inf`. -/
def float64.posInf : float64 := ⟨false, 2047, 0⟩

/-- The value `+0`. -/
def float64.zero : float64 := ⟨false, 0, 0⟩

/-! ## entity.Currency -/

/-- The struct `entity.Currency`. -/
structure Currency where
  ID : String
  Name : String
  Value : float64
  UpdatedAt : Time
  Source : String
  deriving DecidableEq

/-- The constructor `entity.NewCurrency`; `now` is its `time.Now()`. -/
def NewCurrency (now : Time) (id name : String) (value : float64) (source : String) : Currency :=
  { ID := id, Name := name, Value := value, UpdatedAt := now, Source := source }

/-- The method `Currency.IsValid`. -/
def Currency.IsValid (c : Currency) : Bool :=
  c.ID != "" && c.Name != "" && c.Value.gtZero

/-- The method `Currency.IsStale`; `now` is the clock read of its `time.Since`. -/
def Currency.IsStale (c : Currency) (now : Time) (maxAge : Duration) : Bool :=
  decide (time.Since now c.UpdatedAt > maxAge)

/-- The zero value of `entity.Currency`. -/
def Currency.zeroValue : Currency :=
  { ID := "", Name := "", Value := float64.zero, UpdatedAt := 0, Source := "" }

/-! ## encoding/json, as the handlers use it

The handlers put `[]byte` produced by `json.Marshal` in the cache and decode it with
`json.Unmarshal`.  A byte string is represented by what it decodes to.  `json.Marshal`
refuses a float that is NaN or infinite; a finite float, a string and an instant are
read back as they were written. -/

/-- A `[]byte`, classified by the JSON text it holds. -/
inductive Bytes where
  /-- The text `null`. -/
  | null
  /-- A JSON object, with the currency that `json.Unmarshal` reads from it. -/
  | object (c : Currency)
  /-- A JSON array of objects, with the currencies read from it. -/
  | array (cs : List Currency)
  /-- Bytes that are not a JSON text of one of these shapes. -/
  | malformed
  deriving DecidableEq

/-- The call `json.Marshal(currency)` on a non-nil `*entity.Currency`. -/
def json.MarshalCurrency (c : Currency) : Except String Bytes :=
  if c.Value.IsNaN || c.Value.IsInf then .error "json: unsupported value"
  else .ok (.object c)

/-- The call `json.Marshal(currencies)` on a `[]*entity.Currency`; `isNil` tells whether
the slice is `nil`, which is rendered `null`. -/
def json.MarshalCurrencies (cs : List Currency) (isNil : Bool) : Except String Bytes :=
  if cs.any (fun c => c.Value.IsNaN || c.Value.IsInf) then .error "json: unsupported value"
  else if isNil then .ok .null
  else .ok (.array cs)

/-- The call `json.Unmarshal(data, &currency)` with `var currency entity.Currency`. -/
def json.UnmarshalCurrency : Bytes → Except String Currency
  | .null => .ok Currency.zeroValue
  | .object c => .ok c
  | .array _ => .error "json: cannot unmarshal array into Go value of type entity.Currency"
  | .malformed => .error "invalid character"

/-- The call `json.Unmarshal(data, &currencies)` with `var currencies []*entity.Currency`. -/
def json.UnmarshalCurrencies : Bytes → Except String (List Currency)
  | .null => .ok []
  | .object _ => .error "json: cannot unmarshal object into Go value of type []*entity.Currency"
  | .array cs => .ok cs
  | .malformed => .error "invalid character"

/-! ## cache.MemoryCache -/

/-- A Go `map[string]T`. -/
abbrev GoMap (β : Type) := AList (fun _ : String => β)

/-- A value of type `interface{}` as the cache stores it. -/
inductive Payload where
  /-- The `nil` interface value. -/
  | nil
  /-- A `[]byte`. -/
  | bytes (b : Bytes)
  /-- A value of any other dynamic type. -/
  | other (tag : String)
  deriving DecidableEq

/-- The struct `cacheItem`. -/
structure cacheItem where
  value : Payload
  expiresAt : Time
  deriving DecidableEq

/-- The method `cacheItem.isExpired`: `time.Now().After(item.expiresAt)`. -/
def cacheItem.isExpired (item : cacheItem) (now : Time) : Bool :=
  decide (now > item.expiresAt)

/-- The struct `service.CacheStats`.  The fields are `int64` in the source; here they are
integers without bound, and the wrap-around of an increment is in `MemoryCache.getStore`. -/
structure CacheStats where
  Hits : Int
  Misses : Int
  Keys : Int
  deriving DecidableEq

/-- The struct `MemoryCache`: its map and its counters. -/
structure MemoryCache where
  items : GoMap cacheItem
  stats : CacheStats

/-- The constructor `NewMemoryCache`. -/
def NewMemoryCache : MemoryCache :=
  { items := ∅, stats := { Hits := 0, Misses := 0, Keys := 0 } }

/-- What `MemoryCache.Set` returns and leaves behind. -/
structure SetRun where
  err : error
  cache : MemoryCache

/-- The method `MemoryCache.Set`. -/
def MemoryCache.Set (c : MemoryCache) (now : Time) (key : String) (value : Payload)
    (ttl : Duration) : SetRun :=
  let expiresAt := now + ttl
  { err := none
    cache := { c with items := c.items.insert key { value := value, expiresAt := expiresAt } } }

/-- What `MemoryCache.Get` returns and leaves behind; `spawned` is the key whose removal
the method handed to a goroutine, if it did. -/
structure GetRun where
  value : Payload
  err : error
  cache : MemoryCache
  spawned : Option String

/-- The method `MemoryCache.Get`, run as one step: no other call falls between its read and
its write of the counter.  `MemoryCache.getLoad` and `MemoryCache.getStore` are the same
method with the two accesses to the counter apart. -/
def MemoryCache.Get (c : MemoryCache) (now : Time) (key : String) : GetRun :=
  match c.items.lookup key with
  | none =>
    { value := .nil, err := none, spawned := none
      cache := { c with stats := { c.stats with Misses := c.stats.Misses + 1 } } }
  | some item =>
    if item.isExpired now then
      { value := .nil, err := none, spawned := some key
        cache := { c with stats := { c.stats with Misses := c.stats.Misses + 1 } } }
    else
      { value := item.value, err := none, spawned := none
        cache := { c with stats := { c.stats with Hits := c.stats.Hits + 1 } } }

/-- The method `MemoryCache.Delete`. -/
def MemoryCache.Delete (c : MemoryCache) (key : String) : SetRun :=
  { err := none, cache := { c with items := c.items.erase key } }

/-- What `MemoryCache.Exists` returns; `spawned` as for `Get`. -/
structure ExistsRun where
  found : Bool
  err : error
  spawned : Option String

/-- The method `MemoryCache.Exists`. -/
def MemoryCache.Exists (c : MemoryCache) (now : Time) (key : String) : ExistsRun :=
  match c.items.lookup key with
  | none => { found := false, err := none, spawned := none }
  | some item =>
    if item.isExpired now then { found := false, err := none, spawned := some key }
    else { found := true, err := none, spawned := none }

/-- The method `MemoryCache.Clear`. -/
def MemoryCache.Clear (_c : MemoryCache) : SetRun :=
  { err := none, cache := { items := ∅, stats := { Hits := 0, Misses := 0, Keys := 0 } } }

/-- The method `MemoryCache.GetStats`. -/
def MemoryCache.GetStats (c : MemoryCache) : CacheStats × error :=
  ({ c.stats with Keys := (c.items.entries.length : Int) }, none)

/-- The statement a goroutine started by `Get` or `Exists` runs: `delete(c.items, key)`. -/
def MemoryCache.runSpawned (c : MemoryCache) (key : String) : MemoryCache :=
  { c with items := c.items.erase key }

/-! ## cache.MemoryRepository -/

/-- The struct `MemoryRepository`. -/
structure MemoryRepository where
  currencies : GoMap Currency

/-- The constructor `NewMemoryRepository`. -/
def NewMemoryRepository : MemoryRepository := { currencies := ∅ }

/-- What `MemoryRepository.Save` returns and leaves behind. -/
structure SaveRun where
  err : error
  repo : MemoryRepository

/-- The method `MemoryRepository.Save`; the argument is a pointer, `none` is `nil`. -/
def MemoryRepository.Save (r : MemoryRepository) (now : Time) (currency : Option Currency) :
    SaveRun :=
  match currency with
  | none => { err := some "currency cannot be nil", repo := r }
  | some currency =>
    if !currency.IsValid then { err := some "currency is not valid", repo := r }
    else
      let currencyCopy := { currency with UpdatedAt := now }
      { err := none, repo := { r with currencies := r.currencies.insert currency.ID currencyCopy } }

/-- The method `MemoryRepository.FindByID`: the copy it returns (`none` is `nil`) and the
error. -/
def MemoryRepository.FindByID (r : MemoryRepository) (id : String) : Option Currency × error :=
  if id = "" then (none, some "id cannot be empty")
  else
    match r.currencies.lookup id with
    | none => (none, none)
    | some currency => (some currency, none)

/-- The method `MemoryRepository.FindAll`. -/
def MemoryRepository.FindAll (r : MemoryRepository) : List Currency × error :=
  (r.currencies.entries.map (fun e => e.2), none)

/-- The method `MemoryRepository.Delete`. -/
def MemoryRepository.Delete (r : MemoryRepository) (id : String) : SaveRun :=
  if id = "" then { err := some "id cannot be empty", repo := r }
  else { err := none, repo := { r with currencies := r.currencies.erase id } }

/-- The method `MemoryRepository.FindByLastUpdate`. -/
def MemoryRepository.FindByLastUpdate (r : MemoryRepository) (since : Time) :
    List Currency × error :=
  ((r.currencies.entries.map (fun e => e.2)).filter (fun c => decide (c.UpdatedAt > since)), none)

/-- The method `MemoryRepository.Count`. -/
def MemoryRepository.Count (r : MemoryRepository) : Nat × error :=
  (r.currencies.entries.length, none)

/-! ## strings, strconv

`strconv.ParseFloat` is a parameter of the extraction: its theorems hold for every
function from strings to a float or an error.  `strconv.ParseFloat64` is the decimal
fragment of the library function, correctly rounded, on which the examples are run. -/

/-- The predicate `unicode.IsSpace`. -/
def unicode.IsSpace (c : Char) : Bool :=
  c.toNat == 9 || c.toNat == 10 || c.toNat == 11 || c.toNat == 12 || c.toNat == 13 ||
  c.toNat == 32 || c.toNat == 133 || c.toNat == 160 || c.toNat == 5760 ||
  (8192 ≤ c.toNat && c.toNat ≤ 8202) || c.toNat == 8232 || c.toNat == 8233 ||
  c.toNat == 8239 || c.toNat == 8287 || c.toNat == 12288

/-- The function `strings.TrimSpace`. -/
def strings.TrimSpace (s : String) : String :=
  String.mk ((s.data.dropWhile unicode.IsSpace).reverse.dropWhile unicode.IsSpace).reverse

/-- The call `strings.ReplaceAll(s, ",", ".")`. -/
def strings.ReplaceAllCommaDot (s : String) : String :=
  String.mk (s.data.map (fun c => if c = ',' then '.' else c))

/-- Division of `a` by `b`, rounded to nearest, ties to even. -/
def strconv.divRoundEven (a b : Nat) : Nat :=
  let q := a / b
  let r := a % b
  if 2 * r < b then q
  else if b < 2 * r then q + 1
  else if q % 2 = 0 then q
  else q + 1

/-- The number of binary digits of `n`, with fuel that `n` itself covers. -/
def strconv.bitLen : Nat → Nat → Nat
  | 0, _ => 0
  | fuel + 1, n => if n = 0 then 0 else strconv.bitLen fuel (n / 2) + 1

/-- The binary64 nearest to `num / den` (`den > 0`), with the given sign; `none` when the
value is out of range. -/
def strconv.toFloat64 (neg : Bool) (num den : Nat) : Option float64 :=
  if num = 0 then some ⟨neg, 0, 0⟩
  else
    let e0 : Int := (strconv.bitLen num num : Int) - (strconv.bitLen den den : Int)
    let e : Int := if den * 2 ^ e0.toNat ≤ num * 2 ^ (-e0).toNat then e0 else e0 - 1
    let eb : Int := if e < -1022 then -1022 else e
    let s : Int := 52 - eb
    let m : Nat := strconv.divRoundEven (num * 2 ^ s.toNat) (den * 2 ^ (-s).toNat)
    if m < 4503599627370496 then
      some ⟨neg, 0, ⟨m % 4503599627370496, Nat.mod_lt _ (by decide)⟩⟩
    else
      let biased : Int := if m = 9007199254740992 then eb + 1024 else eb + 1023
      let frac : Nat := if m = 9007199254740992 then 0 else m - 4503599627370496
      if biased > 2046 then none
      else some ⟨neg, ⟨biased.toNat % 2048, Nat.mod_lt _ (by decide)⟩,
        ⟨frac % 4503599627370496, Nat.mod_lt _ (by decide)⟩⟩

/-- The value of a decimal digit. -/
def strconv.digitVal (c : Char) : Option Nat :=
  if 48 ≤ c.toNat ∧ c.toNat ≤ 57 then some (c.toNat - 48) else none

/-- Reads a run of decimal digits: the number read so far, how many digits, and the rest. -/
def strconv.readDigits : List Char → Nat → Nat → Nat × Nat × List Char
  | [], acc, n => (acc, n, [])
  | c :: cs, acc, n =>
    match strconv.digitVal c with
    | some d => strconv.readDigits cs (10 * acc + d) (n + 1)
    | none => (acc, n, c :: cs)

/-- Lower-cases an ASCII letter. -/
def strconv.lower (c : Char) : Char :=
  if 65 ≤ c.toNat ∧ c.toNat ≤ 90 then Char.ofNat (c.toNat + 32) else c

/-- The decimal part of `strconv.ParseFloat(s, 64)` after the sign: digits, an optional
point and digits, an optional exponent; at least one digit. -/
def strconv.readDecimal (neg : Bool) (cs : List Char) : Except String float64 :=
  let (ip, ni, r1) := strconv.readDigits cs 0 0
  let (fp, nf, r2) : Nat × Nat × List Char :=
    match r1 with
    | '.' :: r => strconv.readDigits r ip 0
    | _ => (ip, 0, r1)
  if ni + nf = 0 then .error "invalid syntax"
  else
    let ex : Option Int :=
      match r2 with
      | [] => some 0
      | e :: r =>
        if e = 'e' ∨ e = 'E' then
          let (eneg, r3) : Bool × List Char :=
            match r with
            | '-' :: t => (true, t)
            | '+' :: t => (false, t)
            | _ => (false, r)
          match strconv.readDigits r3 0 0 with
          | (x, nx, []) => if nx = 0 then none else some (if eneg then -(x : Int) else (x : Int))
          | _ => none
        else none
    match ex with
    | none => .error "invalid syntax"
    | some x =>
      let p : Int := x - (nf : Int)
      match strconv.toFloat64 neg (fp * 10 ^ p.toNat) (10 ^ (-p).toNat) with
      | some v => .ok v
      | none => .error "value out of range"

/-- The decimal fragment of `strconv.ParseFloat(s, 64)`: an optional sign followed by a
decimal numeral, or by `inf` or `infinity`, or the unsigned `nan`, letters in either
case.  Hexadecimal floats and underscores between digits, which the library also accepts,
are outside the fragment: the function answers `invalid syntax` on them.  The error texts
are shortened. -/
def strconv.ParseFloat64 (s : String) : Except String float64 :=
  let (signed, neg, body) : Bool × Bool × List Char :=
    match s.data with
    | '-' :: t => (true, true, t)
    | '+' :: t => (true, false, t)
    | t => (false, false, t)
  let low := body.map strconv.lower
  if low = "inf".data ∨ low = "infinity".data then .ok ⟨neg, 2047, 0⟩
  else if low = "nan".data ∧ signed = false then .ok ⟨false, 2047, 2251799813685249⟩
  else strconv.readDecimal neg body

/-! ## golang.org/x/net/html, as the scraper uses it -/

/-- The type `html.NodeType`. -/
inductive NodeType where
  | ErrorNode
  | TextNode
  | DocumentNode
  | ElementNode
  | CommentNode
  | DoctypeNode
  | RawNode
  deriving DecidableEq

/-- The struct `html.Attribute`. -/
structure Attribute where
  Namespace : String
  Key : String
  Val : String
  deriving DecidableEq

/-- The struct `html.Node`: its type, its data, its attributes, and its children from
`FirstChild` along `NextSibling`. -/
inductive Node where
  | mk (type : NodeType) (Data : String) (Attr : List Attribute) (children : List Node)

/-- The field `Node.Type`. -/
def Node.Type : Node → NodeType
  | .mk t _ _ _ => t

/-- The field `Node.Data`. -/
def Node.Data : Node → String
  | .mk _ d _ _ => d

/-- The field `Node.Attr`. -/
def Node.Attr : Node → List Attribute
  | .mk _ _ a _ => a

/-- The children of a node, in order. -/
def Node.children : Node → List Node
  | .mk _ _ _ cs => cs

/-- The field `Node.FirstChild`; `none` is `nil`. -/
def Node.FirstChild (n : Node) : Option Node := n.children.head?

/-! ## scraper.BCVScraper -/

/-- An HTTP response as the scraper reads it: the status code, and what `html.Parse`
makes of the body. -/
structure Response where
  StatusCode : Nat
  Doc : Except String Node

/-- The remote site during one run: what `httpClient.Do` returns for the `HEAD` request and
for the `GET` request (an error, or a response). -/
structure Site where
  Head : Except String Nat
  Get : Except String Response

/-- The field `baseURL` set by `NewBCVScraper`. -/
def BCVScraper.baseURL : String := "https://www.bcv.org.ve/"

mutual
/-- The method `BCVScraper.findByID`. -/
def BCVScraper.findByID : Node → String → Option Node
  | .mk t d attrs cs, id =>
    if t = NodeType.ElementNode ∧ attrs.any (fun attr => attr.Key = "id" ∧ attr.Val = id) = true then
      some (.mk t d attrs cs)
    else BCVScraper.findByIDChildren cs id
/-- The loop of `findByID` over the children of a node. -/
def BCVScraper.findByIDChildren : List Node → String → Option Node
  | [], _ => none
  | child :: rest, id =>
    match BCVScraper.findByID child id with
    | some result => some result
    | none => BCVScraper.findByIDChildren rest id
end

mutual
/-- The method `BCVScraper.findByTag`. -/
def BCVScraper.findByTag : Node → String → Option Node
  | .mk t d attrs cs, tagName =>
    if t = NodeType.ElementNode ∧ d = tagName then some (.mk t d attrs cs)
    else BCVScraper.findByTagChildren cs tagName
/-- The loop of `findByTag` over the children of a node. -/
def BCVScraper.findByTagChildren : List Node → String → Option Node
  | [], _ => none
  | child :: rest, tagName =>
    match BCVScraper.findByTag child tagName with
    | some result => some result
    | none => BCVScraper.findByTagChildren rest tagName
end

/-- The method `BCVScraper.extractCurrencyValue`. -/
def BCVScraper.extractCurrencyValue (parseFloat : String → Except String float64)
    (bodyNode : Node) (currencyID : String) : Except String float64 :=
  match BCVScraper.findByID bodyNode currencyID with
  | none => .error ("currency container for " ++ currencyID ++ " not found")
  | some currencyContainer =>
    match BCVScraper.findByTag currencyContainer "strong" with
    | none => .error ("strong element not found for " ++ currencyID)
    | some strongNode =>
      match strongNode.FirstChild with
      | none => .error ("no text content found for " ++ currencyID)
      | some firstChild =>
        let currencyContent := firstChild.Data
        let cleanValue := strings.ReplaceAllCommaDot (strings.TrimSpace currencyContent)
        match parseFloat cleanValue with
        | .error err => .error ("error parsing currency value " ++ cleanValue ++ ": " ++ err)
        | .ok value => .ok value

/-- The method `BCVScraper.getHTML`, up to `html.Parse`: the parsed document.  The error
text leaves out the status code. -/
def BCVScraper.getHTML (site : Site) : Except String (Except String Node) :=
  match site.Get with
  | .error err => .error err
  | .ok resp =>
    if resp.StatusCode ≠ 200 then .error "HTTP request failed"
    else .ok resp.Doc

/-- The part of `BCVScraper.ScrapeCurrencies` after the document is parsed. -/
def BCVScraper.scrapeDoc (parseFloat : String → Except String float64) (now : Time)
    (doc : Node) : Except String (List Currency) :=
  match BCVScraper.findByTag doc "body" with
  | none => .error "body element not found"
  | some bodyNode =>
    let currencies : List Currency := []
    let currencies :=
      match BCVScraper.extractCurrencyValue parseFloat bodyNode "euro" with
      | .ok euroValue => currencies ++ [NewCurrency now "EUR" "Euro" euroValue BCVScraper.baseURL]
      | .error _ => currencies
    let currencies :=
      match BCVScraper.extractCurrencyValue parseFloat bodyNode "dolar" with
      | .ok dolarValue =>
        currencies ++ [NewCurrency now "USD" "Dólar Americano" dolarValue BCVScraper.baseURL]
      | .error _ => currencies
    if currencies.length = 0 then .error "no currencies found"
    else .ok currencies

/-- The method `BCVScraper.ScrapeCurrencies`. -/
def BCVScraper.ScrapeCurrencies (parseFloat : String → Except String float64) (now : Time)
    (site : Site) : Except String (List Currency) :=
  match BCVScraper.getHTML site with
  | .error err => .error ("error getting HTML: " ++ err)
  | .ok (.error err) => .error ("error parsing HTML: " ++ err)
  | .ok (.ok doc) => BCVScraper.scrapeDoc parseFloat now doc

/-- The method `BCVScraper.IsHealthy`.  The error text leaves out the status code. -/
def BCVScraper.IsHealthy (site : Site) : error :=
  match site.Head with
  | .error err => some err
  | .ok status => if status ≥ 400 then some "BCV website returned an error status" else none

/-- The port `service.CurrencyScraper` during one run of the refresh handler: what each of
the two methods the handler calls returns. -/
structure CurrencyScraper where
  IsHealthy : error
  ScrapeCurrencies : Except String (List Currency)

/-- The adapter `BCVScraper` as a `service.CurrencyScraper`; `now` is the clock read of
`entity.NewCurrency`. -/
def BCVScraper.port (parseFloat : String → Except String float64) (now : Time) (site : Site) :
    CurrencyScraper :=
  { IsHealthy := BCVScraper.IsHealthy site
    ScrapeCurrencies := BCVScraper.ScrapeCurrencies parseFloat now site }

/-! ## command.RefreshCurrenciesHandler -/

/-- A call of the refresh handler on one of its three collaborators. -/
inductive Call where
  /-- The call `scraper.IsHealthy`. -/
  | IsHealthy
  /-- The call `scraper.ScrapeCurrencies`. -/
  | ScrapeCurrencies
  /-- The call `currencyRepo.Save`. -/
  | Save (currency : Currency)
  /-- The call `cache.Delete`. -/
  | CacheDelete (key : String)
  deriving DecidableEq

/-- The struct `RefreshCurrenciesCommand`. -/
structure RefreshCurrenciesCommand where
  ForceRefresh : Bool

/-- The struct `RefreshCurrenciesResult`. -/
structure RefreshCurrenciesResult where
  UpdatedCount : Nat
  Currencies : List String
  Success : Bool
  Message : String

/-- The state of a run of the refresh handler: the two stores, the slice
`updatedCurrencies`, and the calls made so far. -/
structure RefreshState where
  repo : MemoryRepository
  cache : MemoryCache
  updatedCurrencies : List String
  calls : List Call

/-- What `RefreshCurrenciesHandler.Handle` returns and leaves behind. -/
structure RefreshRun where
  result : RefreshCurrenciesResult
  err : error
  repo : MemoryRepository
  cache : MemoryCache
  calls : List Call

/-- One iteration of the loop of `RefreshCurrenciesHandler.Handle`. -/
def RefreshCurrenciesHandler.saveOne (now : Time) (st : RefreshState) (currency : Currency) :
    RefreshState :=
  let saved := st.repo.Save now (some currency)
  match saved.err with
  | some _ => { st with repo := saved.repo, calls := st.calls ++ [Call.Save currency] }
  | none =>
    let cacheKey := "currency:" ++ currency.ID
    let deleted := st.cache.Delete cacheKey
    { repo := saved.repo
      cache := deleted.cache
      updatedCurrencies := st.updatedCurrencies ++ [currency.ID]
      calls := st.calls ++ [Call.Save currency, Call.CacheDelete cacheKey] }

/-- The method `RefreshCurrenciesHandler.Handle`; `now` is the clock read of `Save`. -/
def RefreshCurrenciesHandler.Handle (scraper : CurrencyScraper) (repo : MemoryRepository)
    (cache : MemoryCache) (now : Time) (_cmd : RefreshCurrenciesCommand) : RefreshRun :=
  match scraper.IsHealthy with
  | some err =>
    { result := { UpdatedCount := 0, Currencies := [], Success := false
                  Message := "Scraper no disponible: " ++ err }
      err := some err, repo := repo, cache := cache, calls := [Call.IsHealthy] }
  | none =>
    match scraper.ScrapeCurrencies with
    | .error err =>
      { result := { UpdatedCount := 0, Currencies := [], Success := false
                    Message := "Error al obtener monedas: " ++ err }
        err := some err, repo := repo, cache := cache
        calls := [Call.IsHealthy, Call.ScrapeCurrencies] }
    | .ok currencies =>
      let st := currencies.foldl (RefreshCurrenciesHandler.saveOne now)
        { repo := repo, cache := cache, updatedCurrencies := []
          calls := [Call.IsHealthy, Call.ScrapeCurrencies] }
      let deleted := st.cache.Delete "currencies:all"
      { result := { UpdatedCount := st.updatedCurrencies.length
                    Currencies := st.updatedCurrencies
                    Success := true
                    Message := "Se actualizaron " ++ toString st.updatedCurrencies.length ++
                      " monedas exitosamente" }
        err := none, repo := st.repo, cache := deleted.cache
        calls := st.calls ++ [Call.CacheDelete "currencies:all"] }

/-! ## query.GetCurrencyHandler -/

/-- The struct `GetCurrencyQuery`. -/
structure GetCurrencyQuery where
  CurrencyID : String
  UseCache : Bool

/-- The struct `GetCurrencyResult`; `Currency = none` is the `nil` pointer. -/
structure GetCurrencyResult where
  Currency : Option Currency
  FromCache : Bool
  Success : Bool
  Message : String

/-- What `GetCurrencyHandler.Handle` returns and leaves behind; the handler only reads the
repository.  `spawned` lists the keys whose removal the cache handed to a goroutine. -/
structure GetCurrencyRun where
  result : GetCurrencyResult
  err : error
  cache : MemoryCache
  spawned : List String

/-- The second half of `GetCurrencyHandler.Handle`, from `Obtener desde repositorio` on. -/
def GetCurrencyHandler.fromRepository (repo : MemoryRepository) (cache : MemoryCache)
    (spawned : List String) (now : Time) (query : GetCurrencyQuery) : GetCurrencyRun :=
  let cacheKey := "currency:" ++ query.CurrencyID
  match repo.FindByID query.CurrencyID with
  | (_, some err) =>
    { result := { Currency := none, FromCache := false, Success := false
                  Message := "Error al obtener moneda: " ++ err }
      err := some err, cache := cache, spawned := spawned }
  | (none, none) =>
    { result := { Currency := none, FromCache := false, Success := false
                  Message := "Moneda no encontrada" }
      err := none, cache := cache, spawned := spawned }
  | (some currency, none) =>
    let cache :=
      if query.UseCache then
        match json.MarshalCurrency currency with
        | .ok currencyData => (cache.Set now cacheKey (.bytes currencyData) (5 * time.Minute)).cache
        | .error _ => cache
      else cache
    { result := { Currency := some currency, FromCache := false, Success := true
                  Message := "Moneda obtenida desde repositorio" }
      err := none, cache := cache, spawned := spawned }

/-- The method `GetCurrencyHandler.Handle`. -/
def GetCurrencyHandler.Handle (repo : MemoryRepository) (cache : MemoryCache) (now : Time)
    (query : GetCurrencyQuery) : GetCurrencyRun :=
  let cacheKey := "currency:" ++ query.CurrencyID
  if query.UseCache then
    let got := cache.Get now cacheKey
    match got.err, got.value with
    | none, .bytes currencyData =>
      match json.UnmarshalCurrency currencyData with
      | .ok currency =>
        { result := { Currency := some currency, FromCache := true, Success := true
                      Message := "Moneda obtenida desde caché" }
          err := none, cache := got.cache, spawned := got.spawned.toList }
      | .error _ =>
        GetCurrencyHandler.fromRepository repo got.cache got.spawned.toList now query
    | _, _ => GetCurrencyHandler.fromRepository repo got.cache got.spawned.toList now query
  else GetCurrencyHandler.fromRepository repo cache [] now query

/-! ## query.GetAllCurrenciesHandler -/

/-- The struct `GetAllCurrenciesQuery`. -/
structure GetAllCurrenciesQuery where
  UseCache : Bool
  IncludeStale : Bool

/-- The struct `GetAllCurrenciesResult`. -/
structure GetAllCurrenciesResult where
  Currencies : List Currency
  Count : Nat
  FromCache : Bool
  Success : Bool
  Message : String

/-- What `GetAllCurrenciesHandler.Handle` returns and leaves behind. -/
structure GetAllCurrenciesRun where
  result : GetAllCurrenciesResult
  err : error
  cache : MemoryCache
  spawned : List String

/-- The second half of `GetAllCurrenciesHandler.Handle`, from `Obtener desde repositorio`
on. -/
def GetAllCurrenciesHandler.fromRepository (repo : MemoryRepository) (cache : MemoryCache)
    (spawned : List String) (now : Time) (query : GetAllCurrenciesQuery) :
    GetAllCurrenciesRun :=
  let cacheKey := "currencies:all"
  match repo.FindAll with
  | (_, some err) =>
    { result := { Currencies := [], Count := 0, FromCache := false, Success := false
                  Message := "Error al obtener monedas desde repositorio" }
      err := some err, cache := cache, spawned := spawned }
  | (found, none) =>
    let currencies :=
      if !query.IncludeStale then
        found.filter (fun currency => !currency.IsStale now (30 * time.Minute))
      else found
    let isNil := !query.IncludeStale && currencies.isEmpty
    let cache :=
      if query.UseCache then
        match json.MarshalCurrencies currencies isNil with
        | .ok currenciesData =>
          (cache.Set now cacheKey (.bytes currenciesData) (2 * time.Minute)).cache
        | .error _ => cache
      else cache
    { result := { Currencies := currencies, Count := currencies.length, FromCache := false
                  Success := true, Message := "Monedas obtenidas desde repositorio" }
      err := none, cache := cache, spawned := spawned }

/-- The method `GetAllCurrenciesHandler.Handle`. -/
def GetAllCurrenciesHandler.Handle (repo : MemoryRepository) (cache : MemoryCache) (now : Time)
    (query : GetAllCurrenciesQuery) : GetAllCurrenciesRun :=
  let cacheKey := "currencies:all"
  if query.UseCache then
    let got := cache.Get now cacheKey
    match got.err, got.value with
    | none, .bytes currenciesData =>
      match json.UnmarshalCurrencies currenciesData with
      | .ok currencies =>
        { result := { Currencies := currencies, Count := currencies.length, FromCache := true
                      Success := true, Message := "Monedas obtenidas desde caché" }
          err := none, cache := got.cache, spawned := got.spawned.toList }
      | .error _ =>
        GetAllCurrenciesHandler.fromRepository repo got.cache got.spawned.toList now query
    | _, _ => GetAllCurrenciesHandler.fromRepository repo got.cache got.spawned.toList now query
  else GetAllCurrenciesHandler.fromRepository repo cache [] now query

/-! ## The invariant of the repository -/

/-- The invariant of the store: every snapshot is filed under its own id and is valid.
`NewMemoryRepository` has it and `Save` and `Delete` keep it. -/
def MemoryRepository.WellFormed (r : MemoryRepository) : Prop :=
  ∀ id c, r.currencies.lookup id = some c → c.ID = id ∧ c.IsValid = true

/-! ## Example data -/

/-- The rate 144.3732 as a binary64. -/
def Example.rate144 : float64 := ⟨false, 1030, 576080761084864⟩

/-- The rate 168.34059493 as a binary64. -/
def Example.rate168 : float64 := ⟨false, 1030, 1419358502301970⟩

/-- An anchor of the page: an element with the given id around a `strong` element that
holds the given text. -/
def Example.anchor (id text : String) : Node :=
  .mk .ElementNode "div" [⟨"", "id", id⟩]
    [.mk .ElementNode "strong" [] [.mk .TextNode text [] []]]

/-- A parsed page whose body holds the given nodes. -/
def Example.page (content : List Node) : Node :=
  .mk .DocumentNode "" []
    [.mk .ElementNode "html" [] [.mk .ElementNode "head" [] [], .mk .ElementNode "body" [] content]]

/-- A site that is up and serves the given page. -/
def Example.site (doc : Node) : Site :=
  { Head := .ok 200, Get := .ok { StatusCode := 200, Doc := .ok doc } }

/-- A site that answers the `HEAD` request with status 503. -/
def Example.siteDown : Site :=
  { Head := .ok 503, Get := .ok { StatusCode := 503, Doc := .error "unavailable" } }

/-- A page with both anchors, as the source publishes it. -/
def Example.pageBoth : Node :=
  Example.page [Example.anchor "euro" " 144,37320000 ", Example.anchor "dolar" " 168,34059493 "]

/-- A page with the `euro` anchor only. -/
def Example.pageEuroOnly : Node :=
  Example.page [Example.anchor "euro" " 144,37320000 "]

/-- A page whose `euro` anchor carries another rate. -/
def Example.pageNewEuro : Node :=
  Example.page [Example.anchor "euro" " 168,34059493 "]

/-- A page whose `euro` anchor reads zero and that has no `dolar` anchor. -/
def Example.pageEuroZero : Node :=
  Example.page [Example.anchor "euro" " 0,00 "]

/-- A snapshot of EUR at rate 144.3732, updated at instant `at_`. -/
def Example.eur (at_ : Time) : Currency :=
  { ID := "EUR", Name := "Euro", Value := Example.rate144, UpdatedAt := at_
    Source := BCVScraper.baseURL }

/-- A snapshot of USD at rate 168.34059493, updated at instant `at_`. -/
def Example.usd (at_ : Time) : Currency :=
  { ID := "USD", Name := "Dólar Americano", Value := Example.rate168, UpdatedAt := at_
    Source := BCVScraper.baseURL }

/-- A snapshot of EUR whose rate is `+Inf`. -/
def Example.eurInf (at_ : Time) : Currency :=
  { ID := "EUR", Name := "Euro", Value := float64.posInf, UpdatedAt := at_
    Source := BCVScraper.baseURL }

/-- A store that holds the given snapshots, each under its id. -/
def Example.store (cs : List Currency) : MemoryRepository :=
  { currencies := cs.foldl (fun m c => m.insert c.ID c) ∅ }

/-- The state after a refresh at instant 0 from a page with both anchors, on an empty store
and an empty cache. -/
def Example.refreshed : RefreshRun :=
  RefreshCurrenciesHandler.Handle
    (BCVScraper.port strconv.ParseFloat64 0 (Example.site Example.pageBoth))
    NewMemoryRepository NewMemoryCache 0 ⟨false⟩

/-- A cached listing with `IncludeStale = true`, 31 minutes after the refresh. -/
def Example.listingWithStale : GetAllCurrenciesRun :=
  GetAllCurrenciesHandler.Handle Example.refreshed.repo Example.refreshed.cache
    (31 * time.Minute) ⟨true, true⟩

/-- A cached listing with `IncludeStale = false`, 29 minutes after the refresh. -/
def Example.listingFresh : GetAllCurrenciesRun :=
  GetAllCurrenciesHandler.Handle Example.refreshed.repo Example.refreshed.cache
    (29 * time.Minute) ⟨true, false⟩

/-- A store in which EUR was saved at instant 0 and USD two minutes later. -/
def Example.storeTwoAges : MemoryRepository :=
  ((NewMemoryRepository.Save 0 (some (Example.eur 0))).repo.Save (2 * time.Minute)
    (some (Example.usd 0))).repo

/-- A decimal numeral written with a comma as decimal separator: one or more digits,
optionally followed by a comma and one or more digits. -/
def commaDecimal (s : String) : Bool :=
  let isDigit := fun (c : Char) => (strconv.digitVal c).isSome
  let whole := s.data.takeWhile isDigit
  let rest := s.data.dropWhile isDigit
  !whole.isEmpty &&
    (rest.isEmpty || (rest.head? == some ',' && !rest.tail.isEmpty && rest.tail.all isDigit))

/-- The numeral of 1 followed by 309 zeros, a comma and 5, which exceeds the largest
binary64. -/
def Example.hugeNumeral : String := String.mk ('1' :: List.replicate 309 '0' ++ [',', '5'])

/-- A page whose `euro` anchor carries the huge numeral, next to a plain `dolar` anchor. -/
def Example.pageHugeEuro : Node :=
  Example.page [Example.anchor "euro" Example.hugeNumeral,
    Example.anchor "dolar" " 168,34059493 "]

/-- The value -1.5 as a binary64. -/
def Example.minusOneAndHalf : float64 := ⟨true, 1023, 2251799813685248⟩

/-! ## The sweep and the steps of the cache -/

/-- The method `MemoryCache.cleanup`; `now` is the clock read of `isExpired`.  The loop
ranges over the entries of the map and deletes the key of each expired one. -/
def MemoryCache.cleanup (c : MemoryCache) (now : Time) : MemoryCache :=
  { c with
    items := c.items.entries.foldl
      (fun items e => if e.2.isExpired now then items.erase e.1 else items) c.items }

/-- An atomic step on the cache: the call of a method, a sweep of the cleaner, or the run
of a goroutine that a read started. -/
inductive CacheStep where
  /-- The call `Set(key, value, ttl)` at instant `now`. -/
  | callSet (now : Time) (key : String) (value : Payload) (ttl : Duration)
  /-- The call `Get(key)` at instant `now`. -/
  | callGet (now : Time) (key : String)
  /-- The call `Delete(key)`. -/
  | callDelete (key : String)
  /-- The call `Exists(key)` at instant `now`. -/
  | callExists (now : Time) (key : String)
  /-- The call `Clear()`. -/
  | callClear
  /-- The call `GetStats()`. -/
  | callGetStats
  /-- The run of `cleanup` at instant `now`. -/
  | sweep (now : Time)
  /-- The run of a goroutine started by `Get` or `Exists` for the key. -/
  | removal (key : String)
  deriving DecidableEq

/-- The cache together with the goroutines that reads have started and that have not run
yet, each by the key it will delete. -/
structure CacheWorld where
  cache : MemoryCache
  pending : List String

/-- The effect of one step; `none` when the step is the run of a goroutine that no read
has started.  `Exists` and `GetStats` assign to no field of the cache. -/
def CacheWorld.step (w : CacheWorld) : CacheStep → Option CacheWorld
  | .callSet now key value ttl => some { w with cache := (w.cache.Set now key value ttl).cache }
  | .callGet now key =>
    some { cache := (w.cache.Get now key).cache
           pending := w.pending ++ (w.cache.Get now key).spawned.toList }
  | .callDelete key => some { w with cache := (w.cache.Delete key).cache }
  | .callExists now key =>
    some { w with pending := w.pending ++ (w.cache.Exists now key).spawned.toList }
  | .callClear => some { w with cache := w.cache.Clear.cache }
  | .callGetStats => some w
  | .sweep now => some { w with cache := w.cache.cleanup now }
  | .removal key =>
    if key ∈ w.pending then
      some { cache := w.cache.runSpawned key, pending := w.pending.erase key }
    else none

/-- The effect of a sequence of steps. -/
def CacheWorld.run (w : CacheWorld) : List CacheStep → Option CacheWorld
  | [] => some w
  | s :: rest =>
    match w.step s with
    | none => none
    | some w1 => w1.run rest

/-- A cache that holds under `k` an entry that expired at instant 1, with nothing
pending. -/
def Example.worldExpired : CacheWorld :=
  { cache := (NewMemoryCache.Set 0 "k" (Payload.other "old") 1).cache, pending := [] }

/-- A cache with three entries, of expiry 5, 10 and 15. -/
def Example.cacheThree : MemoryCache :=
  (((NewMemoryCache.Set 0 "a" (Payload.other "x") 5).cache.Set 0 "b" (Payload.other "y")
    10).cache.Set 0 "c" (Payload.other "z") 15).cache

/-- A cache that holds under `currency:EUR` a snapshot that expired at instant 5. -/
def Example.cacheExpiredEur : MemoryCache :=
  (NewMemoryCache.Set 0 "currency:EUR" (.bytes (.object (Example.eur 0))) 5).cache

/-! ## The document order and the number a numeral denotes

What the extraction is measured against: the order of the nodes in the document, and the
value of a decimal numeral. -/

mutual
/-- The nodes of a tree in document order: the node itself, then the nodes of its
children, from the first child to the last. -/
def Node.preorder : Node → List Node
  | .mk t d attrs cs => .mk t d attrs cs :: Node.preorderChildren cs
/-- The nodes of a list of trees in document order. -/
def Node.preorderChildren : List Node → List Node
  | [] => []
  | child :: rest => child.preorder ++ Node.preorderChildren rest
end

/-- An element that carries the attribute `id` with the given value. -/
def Node.hasID (id : String) (n : Node) : Bool :=
  decide (n.Type = NodeType.ElementNode) &&
    n.Attr.any (fun attr => decide (attr.Key = "id" ∧ attr.Val = id))

/-- An element of the given tag name. -/
def Node.isTag (tagName : String) (n : Node) : Bool :=
  decide (n.Type = NodeType.ElementNode ∧ n.Data = tagName)

/-- The digits of a comma decimal before the comma. -/
def commaDecimal.whole (s : String) : List Char :=
  s.data.takeWhile (fun c => (strconv.digitVal c).isSome)

/-- The digits of a comma decimal after the comma; none when it has no comma. -/
def commaDecimal.frac (s : String) : List Char :=
  (s.data.dropWhile (fun c => (strconv.digitVal c).isSome)).tail

/-- The number that a string of decimal digits denotes. -/
def commaDecimal.digitsValue (ds : List Char) : Nat :=
  ds.foldl (fun acc c => 10 * acc + (c.toNat - 48)) 0

/-- The number a comma decimal denotes is `numerator / denominator`: the numerator is
the number denoted by all its digits. -/
def commaDecimal.numerator (s : String) : Nat :=
  commaDecimal.digitsValue (commaDecimal.whole s ++ commaDecimal.frac s)

/-- The denominator of the number a comma decimal denotes: ten to the number of digits
after the comma. -/
def commaDecimal.denominator (s : String) : Nat :=
  10 ^ (commaDecimal.frac s).length

/-- The `float64` a comma decimal denotes: the binary64 nearest to the number, ties to
even; `none` when the number is beyond the range of `float64`. -/
def commaDecimal.toFloat64 (s : String) : Option float64 :=
  strconv.toFloat64 false (commaDecimal.numerator s) (commaDecimal.denominator s)

/-- A page whose `euro` anchor holds two `strong` elements, the label before the rate. -/
def Example.pageTwoStrong : Node :=
  Example.page
    [.mk .ElementNode "div" [⟨"", "id", "euro"⟩]
      [.mk .ElementNode "strong" [] [.mk .TextNode "EUR" [] []],
       .mk .ElementNode "strong" [] [.mk .TextNode " 144,37320000 " [] []]],
     Example.anchor "dolar" " 168,34059493 "]

/-! ## Get under the read lock

`Get` holds `RLock`, which other calls of `Get` can hold at the same time, and under it
executes `c.stats.Misses++` or `c.stats.Hits++`: a read of the counter and a write of the
value read plus one, in `int64`.  The two halves below are these two accesses; the steps of
another `Get` can fall between them.  A writer (`Set`, `Delete`, `Clear`, the sweep, a
scheduled removal) takes `Lock` and cannot. -/

/-- The result of `int64` arithmetic: the integer wrapped into the range of `int64`. -/
def int64.wrap (x : Int) : Int :=
  (x + 9223372036854775808) % 18446744073709551616 - 9223372036854775808

/-- A call of `Get` between its read and its write of the counter: what it will return,
the removal it will schedule, the counter its branch increments (`hit`: `Hits`, otherwise
`Misses`), and the value of that counter it has read. -/
structure GetInFlight where
  value : Payload
  spawned : Option String
  hit : Bool
  loaded : Int

/-- The first half of `MemoryCache.Get`: the lookup, the choice of the branch, and the read
of the counter in `c.stats.Misses++` or `c.stats.Hits++`. -/
def MemoryCache.getLoad (c : MemoryCache) (now : Time) (key : String) : GetInFlight :=
  match c.items.lookup key with
  | none => { value := .nil, spawned := none, hit := false, loaded := c.stats.Misses }
  | some item =>
    if item.isExpired now then
      { value := .nil, spawned := some key, hit := false, loaded := c.stats.Misses }
    else
      { value := item.value, spawned := none, hit := true, loaded := c.stats.Hits }

/-- The second half of `MemoryCache.Get`, on the cache as it is by then: the write of the
value read plus one to the counter, and the return. -/
def MemoryCache.getStore (c : MemoryCache) (g : GetInFlight) : GetRun :=
  if g.hit then
    { value := g.value, err := none, spawned := g.spawned
      cache := { c with stats := { c.stats with Hits := int64.wrap (g.loaded + 1) } } }
  else
    { value := g.value, err := none, spawned := g.spawned
      cache := { c with stats := { c.stats with Misses := int64.wrap (g.loaded + 1) } } }

/-! ## Lemmas on the float comparisons and on validity -/

theorem float64.gtZero_eq_false_of_leZero (x : float64) (h : x.leZero = true) :
    x.gtZero = false := by
  unfold float64.leZero at h
  unfold float64.gtZero
  cases hn : x.IsNaN <;> cases hz : x.isZero <;> cases hs : x.sign <;> simp_all

theorem Currency.isValid_iff (c : Currency) :
    c.IsValid = true ↔ c.ID ≠ "" ∧ c.Name ≠ "" ∧ c.Value.gtZero = true := by
  simp [Currency.IsValid, and_assoc]

/-! ## The TTL of a cache entry -/

/-- C1 (as stated, refuted): an entry set at instant 100 with TTL 5 expires at 105, and a
`Get` at exactly 105 does not miss: it returns the value and counts a hit. -/
theorem C1_get_at_expiry_is_hit :
    ((NewMemoryCache.Set 100 "k" (Payload.other "v") 5).cache.Get (100 + 5) "k").value
        = Payload.other "v"
      ∧ ((NewMemoryCache.Set 100 "k" (Payload.other "v") 5).cache.Get (100 + 5) "k").value
        ≠ Payload.nil
      ∧ ((NewMemoryCache.Set 100 "k" (Payload.other "v") 5).cache.Get (100 + 5) "k").cache.stats.Hits
        = 1
      ∧ ((NewMemoryCache.Set 100 "k" (Payload.other "v") 5).cache.Get (100 + 5) "k").cache.stats.Misses
        = 0 := by
  decide

/-- C1 (amended): after `Set(key, v, t)` at instant `s` with `t > 0`, a `Get(key)` at any
instant `now <= s + t` returns `v` and counts a hit, and a `Get(key)` at any instant
`now > s + t` returns `nil`, counts a miss and schedules the removal of the key.  The entry
is still served at the expiry instant itself. -/
theorem C1_get_after_set (c : MemoryCache) (key : String) (v : Payload) (t : Duration)
    (s now : Time) (_ht : 0 < t) :
    (now ≤ s + t →
      ((c.Set s key v t).cache.Get now key).value = v
      ∧ ((c.Set s key v t).cache.Get now key).err = none
      ∧ ((c.Set s key v t).cache.Get now key).cache.stats.Hits = c.stats.Hits + 1
      ∧ ((c.Set s key v t).cache.Get now key).cache.stats.Misses = c.stats.Misses)
    ∧ (s + t < now →
      ((c.Set s key v t).cache.Get now key).value = Payload.nil
      ∧ ((c.Set s key v t).cache.Get now key).err = none
      ∧ ((c.Set s key v t).cache.Get now key).cache.stats.Misses = c.stats.Misses + 1
      ∧ ((c.Set s key v t).cache.Get now key).cache.stats.Hits = c.stats.Hits
      ∧ ((c.Set s key v t).cache.Get now key).spawned = some key) := by
  constructor
  · intro h
    have hx : ¬ (s + t < now) := not_lt.mpr h
    simp [MemoryCache.Set, MemoryCache.Get, AList.lookup_insert, cacheItem.isExpired, hx]
  · intro h
    simp [MemoryCache.Set, MemoryCache.Get, AList.lookup_insert, cacheItem.isExpired, h]

/-- C1 (amended), at an instance: TTL 5 set at instant 100, read at 105 and at 106. -/
theorem C1_get_after_set_witness :
    (0 : Duration) < 5
    ∧ ((NewMemoryCache.Set 100 "k" (Payload.other "v") 5).cache.Get 105 "k").value
        = Payload.other "v"
    ∧ ((NewMemoryCache.Set 100 "k" (Payload.other "v") 5).cache.Get 106 "k").value
        = Payload.nil :=
  ⟨by decide,
   ((C1_get_after_set NewMemoryCache "k" (Payload.other "v") 5 100 105 (by decide)).1
      (by decide)).1,
   ((C1_get_after_set NewMemoryCache "k" (Payload.other "v") 5 100 106 (by decide)).2
      (by decide)).1⟩

/-- C2: in every cache state, `Set(key, v, t)` with `t > 0` at instant `s` succeeds, puts
`v` with expiry `s + t` under `key` whatever was there, and a `Get(key)` at an instant
before the new expiry returns exactly `v`, as a hit. -/
theorem C2_set_get_roundtrip (c : MemoryCache) (key : String) (v : Payload) (t : Duration)
    (s now : Time) (_ht : 0 < t) (hnow : now < s + t) :
    (c.Set s key v t).err = none
    ∧ (c.Set s key v t).cache.items.lookup key = some { value := v, expiresAt := s + t }
    ∧ ((c.Set s key v t).cache.Get now key).value = v
    ∧ ((c.Set s key v t).cache.Get now key).err = none
    ∧ ((c.Set s key v t).cache.Get now key).cache.stats.Hits = c.stats.Hits + 1 := by
  have hx : ¬ (s + t < now) := not_lt.mpr (le_of_lt hnow)
  simp [MemoryCache.Set, MemoryCache.Get, AList.lookup_insert, cacheItem.isExpired, hx]

/-- C2, at an instance: a second `Set` under a key that holds an expired entry. -/
theorem C2_set_get_roundtrip_witness :
    (0 : Duration) < 5 ∧ (103 : Time) < 100 + 5
    ∧ (((NewMemoryCache.Set 0 "k" (Payload.other "old") 1).cache.Set 100 "k"
          (Payload.other "new") 5).cache.Get 103 "k").value = Payload.other "new" :=
  ⟨by decide, by decide,
   (C2_set_get_roundtrip (NewMemoryCache.Set 0 "k" (Payload.other "old") 1).cache "k"
      (Payload.other "new") 5 100 103 (by decide) (by decide)).2.2.1⟩

/-! ## The validity guard of the repository -/

/-- C3: in every store state, `Save` of an entity whose value is `<= 0`, or whose id is
empty, or whose name is empty returns an error and leaves the store as it was, so that
`FindByID` answers for every id as before the call. -/
theorem C3_save_invalid_rejected (r : MemoryRepository) (now : Time) (e : Currency)
    (h : e.Value.leZero = true ∨ e.ID = "" ∨ e.Name = "") :
    (r.Save now (some e)).err = some "currency is not valid"
    ∧ (r.Save now (some e)).repo = r
    ∧ ∀ id, (r.Save now (some e)).repo.FindByID id = r.FindByID id := by
  have hv : e.IsValid = false := by
    rcases h with h | h | h
    · simp [Currency.IsValid, float64.gtZero_eq_false_of_leZero _ h]
    · simp [Currency.IsValid, h]
    · simp [Currency.IsValid, h]
  simp [MemoryRepository.Save, hv]

/-- C3, at an instance: a store that holds EUR refuses a EUR snapshot of value zero. -/
theorem C3_save_invalid_rejected_witness :
    ((NewMemoryRepository.Save 1 (some ⟨"EUR", "Euro", ⟨false, 1030, 576080761084864⟩, 0,
        "bcv"⟩)).repo.Save 2 (some ⟨"EUR", "Euro", float64.zero, 0, "bcv"⟩)).repo.FindByID "EUR"
      = (NewMemoryRepository.Save 1 (some ⟨"EUR", "Euro", ⟨false, 1030, 576080761084864⟩, 0,
        "bcv"⟩)).repo.FindByID "EUR"
    ∧ (NewMemoryRepository.Save 1 (some ⟨"EUR", "Euro", ⟨false, 1030, 576080761084864⟩, 0,
        "bcv"⟩)).repo.FindByID "EUR"
      = (some ⟨"EUR", "Euro", ⟨false, 1030, 576080761084864⟩, 1, "bcv"⟩, none) :=
  ⟨(C3_save_invalid_rejected _ 2 ⟨"EUR", "Euro", float64.zero, 0, "bcv"⟩
      (Or.inl (by decide))).2.2 "EUR", by decide⟩

/-! ## Cache keys and results -/

theorem Except.eq_ok_of_toOption {ε α : Type} (x : Except ε α) (v : α)
    (h : x.toOption = some v) : x = .ok v := by
  cases x with
  | error e => simp [Except.toOption] at h
  | ok a => simp [Except.toOption] at h; rw [h]

theorem cacheKey_ne_aggregate (id : String) : "currency:" ++ id ≠ "currencies:all" := by
  intro h
  have h2 := congrArg String.data h
  simp at h2

theorem cacheKey_injective (a b : String) (h : "currency:" ++ a = "currency:" ++ b) : a = b := by
  have h2 := congrArg String.data h
  simp at h2
  exact String.ext h2

/-! ## The loop of the refresh handler -/

theorem RefreshCurrenciesHandler.saveOne_valid (now : Time) (st : RefreshState) (c : Currency)
    (h : c.IsValid = true) :
    RefreshCurrenciesHandler.saveOne now st c =
      { repo := { currencies := st.repo.currencies.insert c.ID { c with UpdatedAt := now } }
        cache := { st.cache with items := st.cache.items.erase ("currency:" ++ c.ID) }
        updatedCurrencies := st.updatedCurrencies ++ [c.ID]
        calls := st.calls ++ [Call.Save c, Call.CacheDelete ("currency:" ++ c.ID)] } := by
  simp [RefreshCurrenciesHandler.saveOne, MemoryRepository.Save, MemoryCache.Delete, h]

theorem RefreshCurrenciesHandler.saveOne_invalid (now : Time) (st : RefreshState)
    (c : Currency) (h : c.IsValid = false) :
    RefreshCurrenciesHandler.saveOne now st c = { st with calls := st.calls ++ [Call.Save c] } := by
  simp [RefreshCurrenciesHandler.saveOne, MemoryRepository.Save, h]

/-- The identifiers the loop appends: those of the valid entities, in order. -/
theorem RefreshCurrenciesHandler.loop_updated (now : Time) (cs : List Currency) :
    ∀ st : RefreshState,
      (cs.foldl (RefreshCurrenciesHandler.saveOne now) st).updatedCurrencies
        = st.updatedCurrencies ++ (cs.filter Currency.IsValid).map Currency.ID := by
  induction cs with
  | nil => intro st; simp
  | cons c cs ih =>
    intro st
    rw [List.foldl_cons, ih]
    cases h : c.IsValid
    · rw [RefreshCurrenciesHandler.saveOne_invalid now st c h]; simp [h]
    · rw [RefreshCurrenciesHandler.saveOne_valid now st c h]; simp [h]

/-- The loop leaves the hit and miss counters alone. -/
theorem RefreshCurrenciesHandler.loop_stats (now : Time) (cs : List Currency) :
    ∀ st : RefreshState,
      (cs.foldl (RefreshCurrenciesHandler.saveOne now) st).cache.stats = st.cache.stats := by
  induction cs with
  | nil => intro st; simp
  | cons c cs ih =>
    intro st
    rw [List.foldl_cons, ih]
    cases h : c.IsValid
    · rw [RefreshCurrenciesHandler.saveOne_invalid now st c h]
    · rw [RefreshCurrenciesHandler.saveOne_valid now st c h]

/-- The cache after the loop: the keys of the saved entities are gone, every other key is
as before. -/
theorem RefreshCurrenciesHandler.loop_cache (now : Time) (cs : List Currency) (k : String) :
    ∀ st : RefreshState,
      (cs.foldl (RefreshCurrenciesHandler.saveOne now) st).cache.items.lookup k
        = if k ∈ (cs.filter Currency.IsValid).map (fun c => "currency:" ++ c.ID) then none
          else st.cache.items.lookup k := by
  induction cs with
  | nil => intro st; simp
  | cons c cs ih =>
    intro st
    rw [List.foldl_cons, ih]
    cases h : c.IsValid
    · rw [RefreshCurrenciesHandler.saveOne_invalid now st c h,
        List.filter_cons_of_neg (by simp [h])]
    · rw [RefreshCurrenciesHandler.saveOne_valid now st c h, List.filter_cons_of_pos h,
        List.map_cons]
      by_cases hk : k = "currency:" ++ c.ID
      · subst hk; simp [AList.lookup_erase]
      · simp only [List.mem_cons, hk, false_or, AList.lookup_erase_ne hk]

/-- The number of `cache.Delete(k)` calls the loop makes. -/
theorem RefreshCurrenciesHandler.loop_deletes (now : Time) (cs : List Currency) (k : String) :
    ∀ st : RefreshState,
      (cs.foldl (RefreshCurrenciesHandler.saveOne now) st).calls.count (Call.CacheDelete k)
        = st.calls.count (Call.CacheDelete k)
          + ((cs.filter Currency.IsValid).map (fun c => "currency:" ++ c.ID)).count k := by
  induction cs with
  | nil => intro st; simp
  | cons c cs ih =>
    intro st
    rw [List.foldl_cons, ih]
    cases h : c.IsValid
    · rw [RefreshCurrenciesHandler.saveOne_invalid now st c h]; simp [h]
    · rw [RefreshCurrenciesHandler.saveOne_valid now st c h]
      by_cases hk : "currency:" ++ c.ID = k
      · subst hk; simp [h, List.count_cons]; omega
      · simp [h, hk, List.count_cons]

/-- The loop never calls the scraper. -/
theorem RefreshCurrenciesHandler.loop_scrapes (now : Time) (cs : List Currency) :
    ∀ st : RefreshState,
      (cs.foldl (RefreshCurrenciesHandler.saveOne now) st).calls.count Call.ScrapeCurrencies
        = st.calls.count Call.ScrapeCurrencies := by
  induction cs with
  | nil => intro st; simp
  | cons c cs ih =>
    intro st
    rw [List.foldl_cons, ih]
    cases h : c.IsValid
    · rw [RefreshCurrenciesHandler.saveOne_invalid now st c h]; simp
    · rw [RefreshCurrenciesHandler.saveOne_valid now st c h]; simp

/-- The store after the loop, at an identifier the loop reports: the snapshot of a valid
scraped entity of that identifier, stamped with the instant of the save. -/
theorem RefreshCurrenciesHandler.loop_repo (now : Time) (cs : List Currency) (id : String) :
    ∀ st : RefreshState,
      id ∈ (cs.filter Currency.IsValid).map Currency.ID →
      ∃ c, c ∈ cs ∧ c.IsValid = true ∧ c.ID = id ∧
        (cs.foldl (RefreshCurrenciesHandler.saveOne now) st).repo.currencies.lookup id
          = some { c with UpdatedAt := now } := by
  induction cs with
  | nil => intro st h; simp at h
  | cons c cs ih =>
    intro st hmem
    rw [List.foldl_cons]
    by_cases hlater : id ∈ (cs.filter Currency.IsValid).map Currency.ID
    · obtain ⟨d, hd, hv, hid, hl⟩ := ih (RefreshCurrenciesHandler.saveOne now st c) hlater
      exact ⟨d, List.mem_cons_of_mem _ hd, hv, hid, hl⟩
    · have hkeep : ∀ (l : List Currency) (s : RefreshState),
          id ∉ (l.filter Currency.IsValid).map Currency.ID →
          (l.foldl (RefreshCurrenciesHandler.saveOne now) s).repo.currencies.lookup id
            = s.repo.currencies.lookup id := by
        intro l
        induction l with
        | nil => intro s _; simp
        | cons x l ihl =>
          intro s hx
          rw [List.foldl_cons]
          cases hxv : x.IsValid
          · rw [RefreshCurrenciesHandler.saveOne_invalid now s x hxv]
            simp [hxv] at hx
            rw [ihl _ (by simpa using hx)]
          · rw [RefreshCurrenciesHandler.saveOne_valid now s x hxv]
            simp [hxv] at hx
            rw [ihl _ (by simpa using hx.2)]
            have hne : id ≠ x.ID := fun e => hx.1 e
            simp [AList.lookup_insert_ne hne]
      rw [hkeep cs _ hlater]
      cases hcv : c.IsValid
      · simp [hcv] at hmem
        exact absurd hmem (by simpa using hlater)
      · have hidc : c.ID = id := by
          simp [hcv] at hmem
          rcases hmem with h | h
          · exact h.symm
          · exact absurd h (by simpa using hlater)
        refine ⟨c, List.mem_cons_self _ _, hcv, hidc, ?_⟩
        rw [RefreshCurrenciesHandler.saveOne_valid now st c hcv]
        subst hidc
        simp [AList.lookup_insert]

/-! ## The refresh handler -/

/-- The run of the refresh handler when the scraper is healthy and returns entities. -/
theorem RefreshCurrenciesHandler.Handle_ok (scraper : CurrencyScraper) (repo : MemoryRepository)
    (cache : MemoryCache) (now : Time) (cmd : RefreshCurrenciesCommand) (cs : List Currency)
    (hh : scraper.IsHealthy = none) (hs : scraper.ScrapeCurrencies = .ok cs) :
    RefreshCurrenciesHandler.Handle scraper repo cache now cmd =
      { result :=
          { UpdatedCount := (cs.foldl (RefreshCurrenciesHandler.saveOne now)
              ⟨repo, cache, [], [Call.IsHealthy, Call.ScrapeCurrencies]⟩).updatedCurrencies.length
            Currencies := (cs.foldl (RefreshCurrenciesHandler.saveOne now)
              ⟨repo, cache, [], [Call.IsHealthy, Call.ScrapeCurrencies]⟩).updatedCurrencies
            Success := true
            Message := "Se actualizaron " ++ toString (cs.foldl (RefreshCurrenciesHandler.saveOne now)
              ⟨repo, cache, [], [Call.IsHealthy, Call.ScrapeCurrencies]⟩).updatedCurrencies.length
              ++ " monedas exitosamente" }
        err := none
        repo := (cs.foldl (RefreshCurrenciesHandler.saveOne now)
          ⟨repo, cache, [], [Call.IsHealthy, Call.ScrapeCurrencies]⟩).repo
        cache := ((cs.foldl (RefreshCurrenciesHandler.saveOne now)
          ⟨repo, cache, [], [Call.IsHealthy, Call.ScrapeCurrencies]⟩).cache.Delete
            "currencies:all").cache
        calls := (cs.foldl (RefreshCurrenciesHandler.saveOne now)
          ⟨repo, cache, [], [Call.IsHealthy, Call.ScrapeCurrencies]⟩).calls
            ++ [Call.CacheDelete "currencies:all"] } := by
  simp [RefreshCurrenciesHandler.Handle, hh, hs]

/-- A run that reports an identifier went through the loop. -/
theorem RefreshCurrenciesHandler.reported_of_mem (scraper : CurrencyScraper)
    (repo : MemoryRepository) (cache : MemoryCache) (now : Time) (cmd : RefreshCurrenciesCommand)
    (id : String)
    (hid : id ∈ (RefreshCurrenciesHandler.Handle scraper repo cache now cmd).result.Currencies) :
    ∃ cs, scraper.IsHealthy = none ∧ scraper.ScrapeCurrencies = .ok cs
      ∧ id ∈ (cs.filter Currency.IsValid).map Currency.ID := by
  cases hh : scraper.IsHealthy with
  | some err => simp [RefreshCurrenciesHandler.Handle, hh] at hid
  | none =>
    cases hs : scraper.ScrapeCurrencies with
    | error err => simp [RefreshCurrenciesHandler.Handle, hh, hs] at hid
    | ok cs =>
      refine ⟨cs, rfl, rfl, ?_⟩
      rw [RefreshCurrenciesHandler.Handle_ok scraper repo cache now cmd cs hh hs] at hid
      simpa [RefreshCurrenciesHandler.loop_updated] using hid

/-- What `BCVScraper.ScrapeCurrencies` can return: EUR, or USD, or EUR then USD. -/
theorem BCVScraper.ScrapeCurrencies_shape (parseFloat : String → Except String float64)
    (now : Time) (site : Site) (cs : List Currency)
    (h : BCVScraper.ScrapeCurrencies parseFloat now site = .ok cs) :
    (∃ v, cs = [NewCurrency now "EUR" "Euro" v BCVScraper.baseURL])
    ∨ (∃ w, cs = [NewCurrency now "USD" "Dólar Americano" w BCVScraper.baseURL])
    ∨ (∃ v w, cs = [NewCurrency now "EUR" "Euro" v BCVScraper.baseURL,
        NewCurrency now "USD" "Dólar Americano" w BCVScraper.baseURL]) := by
  unfold BCVScraper.ScrapeCurrencies at h
  split at h
  · simp at h
  · simp at h
  · rename_i doc _
    unfold BCVScraper.scrapeDoc at h
    split at h
    · simp at h
    · rename_i body _
      cases he : BCVScraper.extractCurrencyValue parseFloat body "euro" with
      | error e1 =>
        cases hd : BCVScraper.extractCurrencyValue parseFloat body "dolar" with
        | error e2 => simp [he, hd] at h
        | ok w =>
          simp [he, hd] at h
          exact Or.inr (Or.inl ⟨w, h.symm⟩)
      | ok v =>
        cases hd : BCVScraper.extractCurrencyValue parseFloat body "dolar" with
        | error e2 =>
          simp [he, hd] at h
          exact Or.inl ⟨v, h.symm⟩
        | ok w =>
          simp [he, hd] at h
          exact Or.inr (Or.inr ⟨v, w, h.symm⟩)

/-- C4: in every store and cache state, when the liveness probe `IsHealthy` fails,
`RefreshCurrenciesHandler.Handle` returns the probe's error with a result that has
`Success = false`, `UpdatedCount = 0` and no identifiers; its only call is the probe (it
does not call `ScrapeCurrencies`), and the store and the cache, entries and counters, are
as they were. -/
theorem C4_unhealthy_refresh_touches_nothing (scraper : CurrencyScraper)
    (repo : MemoryRepository) (cache : MemoryCache) (now : Time) (cmd : RefreshCurrenciesCommand)
    (err : String) (h : scraper.IsHealthy = some err) :
    (RefreshCurrenciesHandler.Handle scraper repo cache now cmd).result.Success = false
    ∧ (RefreshCurrenciesHandler.Handle scraper repo cache now cmd).result.UpdatedCount = 0
    ∧ (RefreshCurrenciesHandler.Handle scraper repo cache now cmd).result.Currencies = []
    ∧ (RefreshCurrenciesHandler.Handle scraper repo cache now cmd).err = some err
    ∧ (RefreshCurrenciesHandler.Handle scraper repo cache now cmd).calls = [Call.IsHealthy]
    ∧ Call.ScrapeCurrencies ∉ (RefreshCurrenciesHandler.Handle scraper repo cache now cmd).calls
    ∧ (RefreshCurrenciesHandler.Handle scraper repo cache now cmd).repo = repo
    ∧ (RefreshCurrenciesHandler.Handle scraper repo cache now cmd).cache = cache := by
  simp [RefreshCurrenciesHandler.Handle, h]

/-- C4, at an instance: the site answers 503 to the probe although its page could be
scraped; the store keeps its EUR snapshot. -/
theorem C4_unhealthy_refresh_touches_nothing_witness :
    (BCVScraper.port strconv.ParseFloat64 5 Example.siteDown).IsHealthy
        = some "BCV website returned an error status"
    ∧ (RefreshCurrenciesHandler.Handle (BCVScraper.port strconv.ParseFloat64 5 Example.siteDown)
        (Example.store [Example.eur 1]) NewMemoryCache 6 ⟨false⟩).result.Success = false
    ∧ (RefreshCurrenciesHandler.Handle (BCVScraper.port strconv.ParseFloat64 5 Example.siteDown)
        (Example.store [Example.eur 1]) NewMemoryCache 6 ⟨false⟩).repo
        = Example.store [Example.eur 1] :=
  ⟨by decide,
   (C4_unhealthy_refresh_touches_nothing _ (Example.store [Example.eur 1]) NewMemoryCache 6
      ⟨false⟩ "BCV website returned an error status" (by decide)).1,
   (C4_unhealthy_refresh_touches_nothing _ (Example.store [Example.eur 1]) NewMemoryCache 6
      ⟨false⟩ "BCV website returned an error status" (by decide)).2.2.2.2.2.2.1⟩

/-- C5 (as stated, refuted): the site is live, the `euro` anchor reads `0,00`, which parses
as the number zero, and there is no `dolar` anchor; the run reports success with
`UpdatedCount = 0` and without `EUR`, because `Save` refuses a rate that is not positive. -/
theorem C5_euro_zero_is_not_counted :
    BCVScraper.IsHealthy (Example.site Example.pageEuroZero) = none
    ∧ BCVScraper.extractCurrencyValue strconv.ParseFloat64
        (Example.page [Example.anchor "euro" " 0,00 "]) "euro" = .ok float64.zero
    ∧ BCVScraper.extractCurrencyValue strconv.ParseFloat64
        (Example.page [Example.anchor "euro" " 0,00 "]) "dolar"
        = .error "currency container for dolar not found"
    ∧ (RefreshCurrenciesHandler.Handle
        (BCVScraper.port strconv.ParseFloat64 5 (Example.site Example.pageEuroZero))
        NewMemoryRepository NewMemoryCache 6 ⟨false⟩).result.Success = true
    ∧ (RefreshCurrenciesHandler.Handle
        (BCVScraper.port strconv.ParseFloat64 5 (Example.site Example.pageEuroZero))
        NewMemoryRepository NewMemoryCache 6 ⟨false⟩).result.UpdatedCount = 0
    ∧ "EUR" ∉ (RefreshCurrenciesHandler.Handle
        (BCVScraper.port strconv.ParseFloat64 5 (Example.site Example.pageEuroZero))
        NewMemoryRepository NewMemoryCache 6 ⟨false⟩).result.Currencies := by
  refine ⟨by decide, by rfl, by rfl, by decide, by decide, by decide⟩

/-- C5 (amended): the source is live and serves a document in whose body the anchor `euro`
yields text that parses as a number greater than zero, and the anchor `dolar` yields none
(no anchor, no `strong` element, no text node, or text that does not parse).  Then the
refresh returns no error, `Success = true`, `UpdatedCount = 1` and the identifier list
`["EUR"]`, which does not contain `USD`. -/
theorem C5_euro_only_refresh (parseFloat : String → Except String float64) (site : Site)
    (doc body : Node) (v : float64) (derr : String) (repo : MemoryRepository)
    (cache : MemoryCache) (scrapedAt now : Time) (cmd : RefreshCurrenciesCommand)
    (hlive : BCVScraper.IsHealthy site = none)
    (hget : BCVScraper.getHTML site = .ok (.ok doc))
    (hbody : BCVScraper.findByTag doc "body" = some body)
    (heuro : BCVScraper.extractCurrencyValue parseFloat body "euro" = .ok v)
    (hpos : v.gtZero = true)
    (hdolar : BCVScraper.extractCurrencyValue parseFloat body "dolar" = .error derr) :
    (RefreshCurrenciesHandler.Handle (BCVScraper.port parseFloat scrapedAt site)
        repo cache now cmd).result.UpdatedCount = 1
    ∧ (RefreshCurrenciesHandler.Handle (BCVScraper.port parseFloat scrapedAt site)
        repo cache now cmd).result.Currencies = ["EUR"]
    ∧ "EUR" ∈ (RefreshCurrenciesHandler.Handle (BCVScraper.port parseFloat scrapedAt site)
        repo cache now cmd).result.Currencies
    ∧ "USD" ∉ (RefreshCurrenciesHandler.Handle (BCVScraper.port parseFloat scrapedAt site)
        repo cache now cmd).result.Currencies
    ∧ (RefreshCurrenciesHandler.Handle (BCVScraper.port parseFloat scrapedAt site)
        repo cache now cmd).result.Success = true
    ∧ (RefreshCurrenciesHandler.Handle (BCVScraper.port parseFloat scrapedAt site)
        repo cache now cmd).err = none := by
  have hs : (BCVScraper.port parseFloat scrapedAt site).ScrapeCurrencies
      = .ok [NewCurrency scrapedAt "EUR" "Euro" v BCVScraper.baseURL] := by
    simp [BCVScraper.port, BCVScraper.ScrapeCurrencies, hget, BCVScraper.scrapeDoc, hbody,
      heuro, hdolar]
  have hv : (NewCurrency scrapedAt "EUR" "Euro" v BCVScraper.baseURL).IsValid = true := by
    simp [NewCurrency, Currency.IsValid, hpos]
  rw [RefreshCurrenciesHandler.Handle_ok _ repo cache now cmd _ hlive hs]
  simp only [RefreshCurrenciesHandler.loop_updated, List.filter_cons_of_pos hv]
  simp [NewCurrency]

/-- C5 (amended), at an instance: the page carries the `euro` anchor with `144,37320000`
and no `dolar` anchor. -/
theorem C5_euro_only_refresh_witness :
    Example.rate144.gtZero = true
    ∧ (RefreshCurrenciesHandler.Handle
        (BCVScraper.port strconv.ParseFloat64 5 (Example.site Example.pageEuroOnly))
        NewMemoryRepository NewMemoryCache 6 ⟨false⟩).result.UpdatedCount = 1
    ∧ (RefreshCurrenciesHandler.Handle
        (BCVScraper.port strconv.ParseFloat64 5 (Example.site Example.pageEuroOnly))
        NewMemoryRepository NewMemoryCache 6 ⟨false⟩).result.Currencies = ["EUR"] :=
  ⟨by decide,
   (C5_euro_only_refresh strconv.ParseFloat64 (Example.site Example.pageEuroOnly)
      Example.pageEuroOnly
      (.mk .ElementNode "body" [] [Example.anchor "euro" " 144,37320000 "])
      Example.rate144 "currency container for dolar not found"
      NewMemoryRepository NewMemoryCache 5 6 ⟨false⟩
      (by decide) (by rfl) (by rfl) (Except.eq_ok_of_toOption _ _ (by decide)) (by decide)
      (by rfl)).1,
   (C5_euro_only_refresh strconv.ParseFloat64 (Example.site Example.pageEuroOnly)
      Example.pageEuroOnly
      (.mk .ElementNode "body" [] [Example.anchor "euro" " 144,37320000 "])
      Example.rate144 "currency container for dolar not found"
      NewMemoryRepository NewMemoryCache 5 6 ⟨false⟩
      (by decide) (by rfl) (by rfl) (Except.eq_ok_of_toOption _ _ (by decide)) (by decide)
      (by rfl)).2.1⟩

/-- No key of a single entity is the aggregate key. -/
theorem RefreshCurrenciesHandler.aggregate_not_entity_key (cs : List Currency) :
    "currencies:all" ∉ (cs.filter Currency.IsValid).map (fun c => "currency:" ++ c.ID) := by
  intro h
  obtain ⟨c, _, hc⟩ := List.mem_map.mp h
  exact cacheKey_ne_aggregate c.ID hc

/-- C6: for every run of the refresh handler on the BCV scraper, in every store and cache
state: if the run succeeds and `EUR` is among its updated identifiers, then the run calls
`cache.Delete("currency:EUR")` exactly once and `cache.Delete("currencies:all")` exactly
once, and when `Handle` returns the cache holds no entry under either key. -/
theorem C6_refresh_invalidates_once (parseFloat : String → Except String float64)
    (scrapedAt : Time) (site : Site) (repo : MemoryRepository) (cache : MemoryCache)
    (now : Time) (cmd : RefreshCurrenciesCommand)
    (_hs : (RefreshCurrenciesHandler.Handle (BCVScraper.port parseFloat scrapedAt site)
        repo cache now cmd).result.Success = true)
    (he : "EUR" ∈ (RefreshCurrenciesHandler.Handle (BCVScraper.port parseFloat scrapedAt site)
        repo cache now cmd).result.Currencies) :
    (RefreshCurrenciesHandler.Handle (BCVScraper.port parseFloat scrapedAt site)
        repo cache now cmd).calls.count (Call.CacheDelete "currency:EUR") = 1
    ∧ (RefreshCurrenciesHandler.Handle (BCVScraper.port parseFloat scrapedAt site)
        repo cache now cmd).calls.count (Call.CacheDelete "currencies:all") = 1
    ∧ (RefreshCurrenciesHandler.Handle (BCVScraper.port parseFloat scrapedAt site)
        repo cache now cmd).cache.items.lookup "currency:EUR" = none
    ∧ (RefreshCurrenciesHandler.Handle (BCVScraper.port parseFloat scrapedAt site)
        repo cache now cmd).cache.items.lookup "currencies:all" = none := by
  obtain ⟨cs, hh, hsc, hmem⟩ := RefreshCurrenciesHandler.reported_of_mem _ repo cache now cmd
    "EUR" he
  rw [RefreshCurrenciesHandler.Handle_ok _ repo cache now cmd cs hh hsc]
  have hkey : "currency:EUR" ∈ (cs.filter Currency.IsValid).map (fun c => "currency:" ++ c.ID) := by
    obtain ⟨c, hc, hid⟩ := List.mem_map.mp hmem
    exact List.mem_map.mpr ⟨c, hc, by rw [hid]; rfl⟩
  have hagg := RefreshCurrenciesHandler.aggregate_not_entity_key cs
  have hne : "currency:EUR" ≠ "currencies:all" := by decide
  have hcount : ((cs.filter Currency.IsValid).map (fun c => "currency:" ++ c.ID)).count
      "currency:EUR" = 1 := by
    have hshape := BCVScraper.ScrapeCurrencies_shape parseFloat scrapedAt site cs hsc
    rcases hshape with ⟨v, rfl⟩ | ⟨w, rfl⟩ | ⟨v, w, rfl⟩
    · cases hv : (NewCurrency scrapedAt "EUR" "Euro" v BCVScraper.baseURL).IsValid
      · simp only [List.filter_cons, hv, List.filter_nil] at hmem
        simp at hmem
      · simp only [List.filter_cons, hv, List.filter_nil]
        simp [NewCurrency]
    · cases hv : (NewCurrency scrapedAt "USD" "Dólar Americano" w BCVScraper.baseURL).IsValid
      · simp only [List.filter_cons, hv, List.filter_nil] at hmem
        simp at hmem
      · simp only [List.filter_cons, hv, List.filter_nil] at hmem
        simp [NewCurrency] at hmem
    · cases hv : (NewCurrency scrapedAt "EUR" "Euro" v BCVScraper.baseURL).IsValid <;>
        cases hw : (NewCurrency scrapedAt "USD" "Dólar Americano" w BCVScraper.baseURL).IsValid
      · simp only [List.filter_cons, hv, hw, List.filter_nil] at hmem
        simp at hmem
      · simp only [List.filter_cons, hv, hw, List.filter_nil] at hmem
        simp [NewCurrency] at hmem
      · simp only [List.filter_cons, hv, hw, List.filter_nil]
        simp [NewCurrency]
      · simp only [List.filter_cons, hv, hw, List.filter_nil]
        simp [NewCurrency, List.count_cons]
  refine ⟨?_, ?_, ?_, ?_⟩
  · simp only [List.count_append, RefreshCurrenciesHandler.loop_deletes, hcount]
    simp
  · simp only [List.count_append, RefreshCurrenciesHandler.loop_deletes,
      List.count_eq_zero.mpr hagg]
    simp
  · simp only [MemoryCache.Delete, AList.lookup_erase_ne hne,
      RefreshCurrenciesHandler.loop_cache, hkey, if_true]
  · simp only [MemoryCache.Delete, AList.lookup_erase]

/-- C6, at an instance: the page carries both anchors, and the cache holds entries under
both keys before the run. -/
theorem C6_refresh_invalidates_once_witness :
    "EUR" ∈ (RefreshCurrenciesHandler.Handle
        (BCVScraper.port strconv.ParseFloat64 5 (Example.site Example.pageBoth))
        (Example.store [Example.eur 1])
        ((NewMemoryCache.Set 2 "currency:EUR" (.bytes (.object (Example.eur 1))) 600).cache.Set 2
          "currencies:all" (.bytes (.array [Example.eur 1])) 600).cache 6 ⟨false⟩).result.Currencies
    ∧ (RefreshCurrenciesHandler.Handle
        (BCVScraper.port strconv.ParseFloat64 5 (Example.site Example.pageBoth))
        (Example.store [Example.eur 1])
        ((NewMemoryCache.Set 2 "currency:EUR" (.bytes (.object (Example.eur 1))) 600).cache.Set 2
          "currencies:all" (.bytes (.array [Example.eur 1])) 600).cache 6 ⟨false⟩).calls.count
          (Call.CacheDelete "currency:EUR") = 1 :=
  ⟨by decide,
   (C6_refresh_invalidates_once strconv.ParseFloat64 5 (Example.site Example.pageBoth)
      (Example.store [Example.eur 1])
      ((NewMemoryCache.Set 2 "currency:EUR" (.bytes (.object (Example.eur 1))) 600).cache.Set 2
        "currencies:all" (.bytes (.array [Example.eur 1])) 600).cache 6 ⟨false⟩
      (by decide) (by decide)).1⟩

/-! ## The single-entity query -/

/-- A cached read that finds no entry under the key goes to the repository, with one miss
more on the counters. -/
theorem GetCurrencyHandler.Handle_of_absent (repo : MemoryRepository) (cache : MemoryCache)
    (now : Time) (id : String) (h : cache.items.lookup ("currency:" ++ id) = none) :
    GetCurrencyHandler.Handle repo cache now ⟨id, true⟩
      = GetCurrencyHandler.fromRepository repo
          { cache with stats := { cache.stats with Misses := cache.stats.Misses + 1 } } [] now
          ⟨id, true⟩ := by
  simp [GetCurrencyHandler.Handle, MemoryCache.Get, h]

/-- The repository half of the query on a stored identifier. -/
theorem GetCurrencyHandler.fromRepository_of_stored (repo : MemoryRepository)
    (cache : MemoryCache) (spawned : List String) (now : Time) (id : String) (useCache : Bool)
    (c : Currency) (hid : id ≠ "") (h : repo.currencies.lookup id = some c) :
    (GetCurrencyHandler.fromRepository repo cache spawned now ⟨id, useCache⟩).result
        = { Currency := some c, FromCache := false, Success := true
            Message := "Moneda obtenida desde repositorio" }
    ∧ (GetCurrencyHandler.fromRepository repo cache spawned now ⟨id, useCache⟩).err = none := by
  simp [GetCurrencyHandler.fromRepository, MemoryRepository.FindByID, hid, h]

/-- C7: in every prior store and cache state, after a refresh run that reports `id` among
its updated identifiers, `GetCurrencyHandler.Handle(id, useCache = true)` on the state the
run left, at any instant, returns without error `FromCache = false`, `Success = true` and
the snapshot the store holds for `id`, which is a valid entity of that id returned by the
scraper in this run, stamped with the instant of the save. -/
theorem C7_read_after_refresh (scraper : CurrencyScraper) (repo : MemoryRepository)
    (cache : MemoryCache) (now : Time) (cmd : RefreshCurrenciesCommand) (id : String)
    (later : Time)
    (hid : id ∈ (RefreshCurrenciesHandler.Handle scraper repo cache now cmd).result.Currencies) :
    (GetCurrencyHandler.Handle (RefreshCurrenciesHandler.Handle scraper repo cache now cmd).repo
        (RefreshCurrenciesHandler.Handle scraper repo cache now cmd).cache later
        ⟨id, true⟩).result.FromCache = false
    ∧ (GetCurrencyHandler.Handle (RefreshCurrenciesHandler.Handle scraper repo cache now cmd).repo
        (RefreshCurrenciesHandler.Handle scraper repo cache now cmd).cache later
        ⟨id, true⟩).result.Success = true
    ∧ (GetCurrencyHandler.Handle (RefreshCurrenciesHandler.Handle scraper repo cache now cmd).repo
        (RefreshCurrenciesHandler.Handle scraper repo cache now cmd).cache later
        ⟨id, true⟩).err = none
    ∧ ((RefreshCurrenciesHandler.Handle scraper repo cache now cmd).repo.FindByID id)
        = ((GetCurrencyHandler.Handle
            (RefreshCurrenciesHandler.Handle scraper repo cache now cmd).repo
            (RefreshCurrenciesHandler.Handle scraper repo cache now cmd).cache later
            ⟨id, true⟩).result.Currency, none)
    ∧ ∃ cs c, scraper.ScrapeCurrencies = .ok cs ∧ c ∈ cs ∧ c.IsValid = true ∧ c.ID = id
        ∧ (GetCurrencyHandler.Handle
            (RefreshCurrenciesHandler.Handle scraper repo cache now cmd).repo
            (RefreshCurrenciesHandler.Handle scraper repo cache now cmd).cache later
            ⟨id, true⟩).result.Currency = some { c with UpdatedAt := now } := by
  obtain ⟨cs, hh, hsc, hmem⟩ := RefreshCurrenciesHandler.reported_of_mem scraper repo cache now
    cmd id hid
  obtain ⟨c, hc, hv, hcid, hlook⟩ := RefreshCurrenciesHandler.loop_repo now cs id
    ⟨repo, cache, [], [Call.IsHealthy, Call.ScrapeCurrencies]⟩ hmem
  have hne : id ≠ "" := by
    have := (Currency.isValid_iff c).mp hv
    rw [hcid] at this
    exact this.1
  have hkey : "currency:" ++ id ∈ (cs.filter Currency.IsValid).map (fun c => "currency:" ++ c.ID) := by
    obtain ⟨d, hd, hdid⟩ := List.mem_map.mp hmem
    exact List.mem_map.mpr ⟨d, hd, by rw [hdid]⟩
  rw [RefreshCurrenciesHandler.Handle_ok scraper repo cache now cmd cs hh hsc]
  have habsent : ((cs.foldl (RefreshCurrenciesHandler.saveOne now)
      ⟨repo, cache, [], [Call.IsHealthy, Call.ScrapeCurrencies]⟩).cache.Delete
        "currencies:all").cache.items.lookup ("currency:" ++ id) = none := by
    simp only [MemoryCache.Delete, AList.lookup_erase_ne (cacheKey_ne_aggregate id),
      RefreshCurrenciesHandler.loop_cache, hkey, if_true]
  simp only []
  rw [GetCurrencyHandler.Handle_of_absent _ _ later id habsent]
  obtain ⟨hres, herr⟩ := GetCurrencyHandler.fromRepository_of_stored
    (cs.foldl (RefreshCurrenciesHandler.saveOne now)
      ⟨repo, cache, [], [Call.IsHealthy, Call.ScrapeCurrencies]⟩).repo
    { ((cs.foldl (RefreshCurrenciesHandler.saveOne now)
        ⟨repo, cache, [], [Call.IsHealthy, Call.ScrapeCurrencies]⟩).cache.Delete
          "currencies:all").cache with
      stats := { ((cs.foldl (RefreshCurrenciesHandler.saveOne now)
        ⟨repo, cache, [], [Call.IsHealthy, Call.ScrapeCurrencies]⟩).cache.Delete
          "currencies:all").cache.stats with
        Misses := ((cs.foldl (RefreshCurrenciesHandler.saveOne now)
          ⟨repo, cache, [], [Call.IsHealthy, Call.ScrapeCurrencies]⟩).cache.Delete
            "currencies:all").cache.stats.Misses + 1 } }
    [] later id true _ hne hlook
  rw [hres, herr]
  refine ⟨rfl, rfl, rfl, ?_, cs, c, hsc, hc, hv, hcid, rfl⟩
  simp [MemoryRepository.FindByID, hne, hlook]

/-- C7, at an instance: the store holds EUR at rate 144.3732 and the cache an unexpired
snapshot of it; the refresh scrapes 168.34059493 for EUR, and the read that follows
returns that rate from the repository. -/
theorem C7_read_after_refresh_witness :
    "EUR" ∈ (RefreshCurrenciesHandler.Handle
        (BCVScraper.port strconv.ParseFloat64 5 (Example.site Example.pageNewEuro))
        (Example.store [Example.eur 1])
        (NewMemoryCache.Set 2 "currency:EUR" (.bytes (.object (Example.eur 1))) 600).cache
        6 ⟨false⟩).result.Currencies
    ∧ (GetCurrencyHandler.Handle
        (RefreshCurrenciesHandler.Handle
          (BCVScraper.port strconv.ParseFloat64 5 (Example.site Example.pageNewEuro))
          (Example.store [Example.eur 1])
          (NewMemoryCache.Set 2 "currency:EUR" (.bytes (.object (Example.eur 1))) 600).cache
          6 ⟨false⟩).repo
        (RefreshCurrenciesHandler.Handle
          (BCVScraper.port strconv.ParseFloat64 5 (Example.site Example.pageNewEuro))
          (Example.store [Example.eur 1])
          (NewMemoryCache.Set 2 "currency:EUR" (.bytes (.object (Example.eur 1))) 600).cache
          6 ⟨false⟩).cache
        7 ⟨"EUR", true⟩).result.FromCache = false
    ∧ (GetCurrencyHandler.Handle
        (RefreshCurrenciesHandler.Handle
          (BCVScraper.port strconv.ParseFloat64 5 (Example.site Example.pageNewEuro))
          (Example.store [Example.eur 1])
          (NewMemoryCache.Set 2 "currency:EUR" (.bytes (.object (Example.eur 1))) 600).cache
          6 ⟨false⟩).repo
        (RefreshCurrenciesHandler.Handle
          (BCVScraper.port strconv.ParseFloat64 5 (Example.site Example.pageNewEuro))
          (Example.store [Example.eur 1])
          (NewMemoryCache.Set 2 "currency:EUR" (.bytes (.object (Example.eur 1))) 600).cache
          6 ⟨false⟩).cache
        7 ⟨"EUR", true⟩).result.Currency = some { Example.eur 6 with Value := Example.rate168 } :=
  ⟨by decide,
   (C7_read_after_refresh
      (BCVScraper.port strconv.ParseFloat64 5 (Example.site Example.pageNewEuro))
      (Example.store [Example.eur 1])
      (NewMemoryCache.Set 2 "currency:EUR" (.bytes (.object (Example.eur 1))) 600).cache
      6 ⟨false⟩ "EUR" 7 (by decide)).1,
   by decide⟩

/-! ## The invariant of the repository is kept -/

theorem MemoryRepository.wellFormed_new : NewMemoryRepository.WellFormed := by
  intro id c h
  simp [NewMemoryRepository] at h

theorem MemoryRepository.wellFormed_save (r : MemoryRepository) (now : Time)
    (currency : Option Currency) (h : r.WellFormed) : (r.Save now currency).repo.WellFormed := by
  cases currency with
  | none => simpa [MemoryRepository.Save] using h
  | some e =>
    cases hv : e.IsValid
    · simpa [MemoryRepository.Save, hv] using h
    · intro id c hc
      simp only [MemoryRepository.Save, hv, Bool.not_true, Bool.false_eq_true, if_false] at hc
      by_cases hid : id = e.ID
      · subst hid
        rw [AList.lookup_insert] at hc
        have hce : c = { e with UpdatedAt := now } := (Option.some.inj hc).symm
        subst hce
        exact ⟨rfl, by simpa [Currency.IsValid] using hv⟩
      · rw [AList.lookup_insert_ne hid] at hc
        exact h id c hc

theorem MemoryRepository.wellFormed_delete (r : MemoryRepository) (id : String)
    (h : r.WellFormed) : (r.Delete id).repo.WellFormed := by
  by_cases hid : id = ""
  · simpa [MemoryRepository.Delete, hid] using h
  · intro k c hc
    simp only [MemoryRepository.Delete, hid, if_false] at hc
    by_cases hk : k = id
    · subst hk; simp [AList.lookup_erase] at hc
    · rw [AList.lookup_erase_ne hk] at hc
      exact h k c hc

theorem float64.isNaN_eq_false_of_gtZero (x : float64) (h : x.gtZero = true) :
    x.IsNaN = false := by
  unfold float64.gtZero at h
  cases hn : x.IsNaN <;> simp_all

/-- C8 (as stated, refuted): the store holds, by a successful `Save`, EUR at rate `+Inf`,
and the cache is empty.  The first cached read returns the stored entity with
`FromCache = false`; `json.Marshal` refuses the rate, nothing is cached, and the second
identical read, one nanosecond later, returns `FromCache = false` again. -/
theorem C8_unserialisable_rate_is_never_cached :
    (NewMemoryRepository.Save 1 (some (Example.eurInf 0))).err = none
    ∧ (NewMemoryRepository.Save 1 (some (Example.eurInf 0))).repo.FindByID "EUR"
        = (some (Example.eurInf 1), none)
    ∧ NewMemoryCache.items.lookup "currency:EUR" = none
    ∧ (GetCurrencyHandler.Handle (NewMemoryRepository.Save 1 (some (Example.eurInf 0))).repo
        NewMemoryCache 2 ⟨"EUR", true⟩).result.Success = true
    ∧ (GetCurrencyHandler.Handle (NewMemoryRepository.Save 1 (some (Example.eurInf 0))).repo
        NewMemoryCache 2 ⟨"EUR", true⟩).result.FromCache = false
    ∧ (GetCurrencyHandler.Handle (NewMemoryRepository.Save 1 (some (Example.eurInf 0))).repo
        (GetCurrencyHandler.Handle (NewMemoryRepository.Save 1 (some (Example.eurInf 0))).repo
          NewMemoryCache 2 ⟨"EUR", true⟩).cache
        3 ⟨"EUR", true⟩).result.FromCache = false := by
  decide

/-- C8 (amended): the store keeps its invariant and holds under `id` a snapshot `c` whose
value is finite, and the cache holds no entry under `currency:<id>`.  Then
`GetCurrencyHandler.Handle(id, useCache = true)` at instant `now1` returns without error
`Success = true`, `FromCache = false` and `c`, and a second identical call on the cache
the first one left, at an instant `now2` before `now1` plus five minutes, returns without
error `Success = true`, `FromCache = true` and an entity equal to `c` in id, name, value,
timestamp and source. -/
theorem C8_second_read_from_cache (repo : MemoryRepository) (cache : MemoryCache) (id : String)
    (c : Currency) (now1 now2 : Time)
    (hwf : repo.WellFormed)
    (hstored : repo.currencies.lookup id = some c)
    (hfin : c.Value.IsInf = false)
    (habsent : cache.items.lookup ("currency:" ++ id) = none)
    (hnow : now2 < now1 + 5 * time.Minute) :
    ((GetCurrencyHandler.Handle repo cache now1 ⟨id, true⟩).result.Success = true
      ∧ (GetCurrencyHandler.Handle repo cache now1 ⟨id, true⟩).result.FromCache = false
      ∧ (GetCurrencyHandler.Handle repo cache now1 ⟨id, true⟩).result.Currency = some c
      ∧ (GetCurrencyHandler.Handle repo cache now1 ⟨id, true⟩).err = none)
    ∧ ((GetCurrencyHandler.Handle repo
          (GetCurrencyHandler.Handle repo cache now1 ⟨id, true⟩).cache now2
          ⟨id, true⟩).result.Success = true
      ∧ (GetCurrencyHandler.Handle repo
          (GetCurrencyHandler.Handle repo cache now1 ⟨id, true⟩).cache now2
          ⟨id, true⟩).result.FromCache = true
      ∧ (GetCurrencyHandler.Handle repo
          (GetCurrencyHandler.Handle repo cache now1 ⟨id, true⟩).cache now2
          ⟨id, true⟩).result.Currency = some c
      ∧ (GetCurrencyHandler.Handle repo
          (GetCurrencyHandler.Handle repo cache now1 ⟨id, true⟩).cache now2
          ⟨id, true⟩).err = none) := by
  obtain ⟨hcid, hvalid⟩ := hwf id c hstored
  have hne : id ≠ "" := by
    have := (Currency.isValid_iff c).mp hvalid
    rw [hcid] at this
    exact this.1
  have hnan : c.Value.IsNaN = false :=
    float64.isNaN_eq_false_of_gtZero _ ((Currency.isValid_iff c).mp hvalid).2.2
  have hx : ¬ (now1 + 5 * time.Minute < now2) := not_lt.mpr (le_of_lt hnow)
  rw [GetCurrencyHandler.Handle_of_absent repo cache now1 id habsent]
  have hfirst : (GetCurrencyHandler.fromRepository repo
      { cache with stats := { cache.stats with Misses := cache.stats.Misses + 1 } } [] now1
      ⟨id, true⟩).cache.items.lookup ("currency:" ++ id)
      = some { value := .bytes (.object c), expiresAt := now1 + 5 * time.Minute } := by
    simp [GetCurrencyHandler.fromRepository, MemoryRepository.FindByID, hne, hstored,
      json.MarshalCurrency, hnan, hfin, MemoryCache.Set, AList.lookup_insert]
  refine ⟨?_, ?_⟩
  · simp [GetCurrencyHandler.fromRepository, MemoryRepository.FindByID, hne, hstored]
  · simp [GetCurrencyHandler.Handle, MemoryCache.Get, hfirst, cacheItem.isExpired, hx,
      json.UnmarshalCurrency]

/-- C8 (amended), at an instance: EUR at rate 144.3732, saved at instant 1, read at
instant 2 and again four minutes later. -/
theorem C8_second_read_from_cache_witness :
    (GetCurrencyHandler.Handle (NewMemoryRepository.Save 1 (some (Example.eur 0))).repo
        NewMemoryCache 2 ⟨"EUR", true⟩).result.FromCache = false
    ∧ (GetCurrencyHandler.Handle (NewMemoryRepository.Save 1 (some (Example.eur 0))).repo
        (GetCurrencyHandler.Handle (NewMemoryRepository.Save 1 (some (Example.eur 0))).repo
          NewMemoryCache 2 ⟨"EUR", true⟩).cache
        (2 + 4 * time.Minute) ⟨"EUR", true⟩).result.FromCache = true
    ∧ (GetCurrencyHandler.Handle (NewMemoryRepository.Save 1 (some (Example.eur 0))).repo
        (GetCurrencyHandler.Handle (NewMemoryRepository.Save 1 (some (Example.eur 0))).repo
          NewMemoryCache 2 ⟨"EUR", true⟩).cache
        (2 + 4 * time.Minute) ⟨"EUR", true⟩).result.Currency = some (Example.eur 1) :=
  ⟨(C8_second_read_from_cache (NewMemoryRepository.Save 1 (some (Example.eur 0))).repo
      NewMemoryCache "EUR" (Example.eur 1) 2 (2 + 4 * time.Minute)
      (MemoryRepository.wellFormed_save _ 1 _ MemoryRepository.wellFormed_new)
      (by decide) (by decide) (by decide) (by decide)).1.2.1,
   (C8_second_read_from_cache (NewMemoryRepository.Save 1 (some (Example.eur 0))).repo
      NewMemoryCache "EUR" (Example.eur 1) 2 (2 + 4 * time.Minute)
      (MemoryRepository.wellFormed_save _ 1 _ MemoryRepository.wellFormed_new)
      (by decide) (by decide) (by decide) (by decide)).2.2.1,
   (C8_second_read_from_cache (NewMemoryRepository.Save 1 (some (Example.eur 0))).repo
      NewMemoryCache "EUR" (Example.eur 1) 2 (2 + 4 * time.Minute)
      (MemoryRepository.wellFormed_save _ 1 _ MemoryRepository.wellFormed_new)
      (by decide) (by decide) (by decide) (by decide)).2.2.2.1⟩

/-! ## The listing query -/

/-- The staleness test against the 30-minute window is the comparison of the age with the
window: the saturation of `Time.Sub` does not change it. -/
theorem Currency.isStale_window (c : Currency) (now : Time) :
    c.IsStale now (30 * time.Minute) = decide (now - c.UpdatedAt > 30 * time.Minute) := by
  have key : ∀ a b : Int,
      ((if a - b > 9223372036854775807 then (9223372036854775807 : Int)
        else if a - b < -9223372036854775808 then -9223372036854775808 else a - b)
          > 30 * (60 * 1000000000))
        ↔ a - b > 30 * (60 * 1000000000) := by
    intro a b
    split_ifs <;> constructor <;> intro h <;> omega
  have hk := key now c.UpdatedAt
  unfold Currency.IsStale time.Since time.Sub time.maxDuration time.minDuration time.Minute
  exact decide_eq_decide.mpr hk

/-- C9 (the code at the failing input): after a refresh at instant 0, a cached listing with
`IncludeStale = true` at minute 31 stores both entities under the aggregate key; a listing
with `IncludeStale = false` one nanosecond later is answered from the cache and returns
EUR, whose age exceeds the 30-minute window, although the repository path at the same
instant returns no entity.  Likewise a listing with `IncludeStale = false` cached at minute
29 is served again at minute 30.5 with entities that are stale by then. -/
theorem C9_stale_entities_served_from_cache :
    Example.refreshed.result.Currencies = ["EUR", "USD"]
    ∧ (GetAllCurrenciesHandler.Handle Example.refreshed.repo Example.listingWithStale.cache
        (31 * time.Minute + 1) ⟨true, false⟩).result.FromCache = true
    ∧ Example.eur 0 ∈ (GetAllCurrenciesHandler.Handle Example.refreshed.repo
        Example.listingWithStale.cache (31 * time.Minute + 1) ⟨true, false⟩).result.Currencies
    ∧ (31 * time.Minute + 1) - (Example.eur 0).UpdatedAt > 30 * time.Minute
    ∧ (GetAllCurrenciesHandler.Handle Example.refreshed.repo Example.listingWithStale.cache
        (31 * time.Minute + 1) ⟨false, false⟩).result.Currencies = []
    ∧ Example.listingFresh.result.FromCache = false
    ∧ (GetAllCurrenciesHandler.Handle Example.refreshed.repo Example.listingFresh.cache
        (29 * time.Minute + 90 * 1000000000) ⟨true, false⟩).result.FromCache = true
    ∧ Example.eur 0 ∈ (GetAllCurrenciesHandler.Handle Example.refreshed.repo
        Example.listingFresh.cache (29 * time.Minute + 90 * 1000000000)
        ⟨true, false⟩).result.Currencies
    ∧ (29 * time.Minute + 90 * 1000000000) - (Example.eur 0).UpdatedAt > 30 * time.Minute := by
  decide

/-- The listing on the repository path. -/
theorem GetAllCurrenciesHandler.Handle_repository_path (repo : MemoryRepository)
    (cache : MemoryCache) (now : Time) (query : GetAllCurrenciesQuery)
    (hpath : query.UseCache = false ∨ (cache.Get now "currencies:all").value = Payload.nil) :
    ∃ cache1 spawned,
      GetAllCurrenciesHandler.Handle repo cache now query
        = GetAllCurrenciesHandler.fromRepository repo cache1 spawned now query := by
  rcases hpath with h | h
  · exact ⟨cache, [], by simp [GetAllCurrenciesHandler.Handle, h]⟩
  · cases hu : query.UseCache
    · exact ⟨cache, [], by simp [GetAllCurrenciesHandler.Handle, hu]⟩
    · refine ⟨(cache.Get now "currencies:all").cache,
        (cache.Get now "currencies:all").spawned.toList, ?_⟩
      simp only [GetAllCurrenciesHandler.Handle, hu, if_true, h]
      cases (cache.Get now "currencies:all").err <;> rfl

/-- C10: in every store state, on the repository path (`UseCache = false`, or a `Get` of
the aggregate key that misses), `GetAllCurrenciesHandler.Handle` succeeds with
`FromCache = false` and `Count` equal to the number of entities returned; with
`IncludeStale = false` it returns exactly the stored entities whose age `now - UpdatedAt`
is at most 30 minutes, and with `IncludeStale = true` every stored entity. -/
theorem C10_listing_from_repository (repo : MemoryRepository) (cache : MemoryCache)
    (now : Time) (query : GetAllCurrenciesQuery)
    (hpath : query.UseCache = false ∨ (cache.Get now "currencies:all").value = Payload.nil) :
    (GetAllCurrenciesHandler.Handle repo cache now query).result.Success = true
    ∧ (GetAllCurrenciesHandler.Handle repo cache now query).result.FromCache = false
    ∧ (GetAllCurrenciesHandler.Handle repo cache now query).err = none
    ∧ (GetAllCurrenciesHandler.Handle repo cache now query).result.Count
        = (GetAllCurrenciesHandler.Handle repo cache now query).result.Currencies.length
    ∧ (query.IncludeStale = false →
        (GetAllCurrenciesHandler.Handle repo cache now query).result.Currencies
          = repo.FindAll.1.filter (fun c => decide (now - c.UpdatedAt ≤ 30 * time.Minute)))
    ∧ (query.IncludeStale = false →
        ∀ c, c ∈ (GetAllCurrenciesHandler.Handle repo cache now query).result.Currencies
          ↔ (∃ id, repo.currencies.lookup id = some c) ∧ now - c.UpdatedAt ≤ 30 * time.Minute)
    ∧ (query.IncludeStale = true →
        (GetAllCurrenciesHandler.Handle repo cache now query).result.Currencies = repo.FindAll.1)
    ∧ (query.IncludeStale = true →
        ∀ c, c ∈ (GetAllCurrenciesHandler.Handle repo cache now query).result.Currencies
          ↔ ∃ id, repo.currencies.lookup id = some c) := by
  obtain ⟨cache1, spawned, hrun⟩ :=
    GetAllCurrenciesHandler.Handle_repository_path repo cache now query hpath
  rw [hrun]
  have hfilter : (fun (c : Currency) => !c.IsStale now (30 * time.Minute))
      = (fun c => decide (now - c.UpdatedAt ≤ 30 * time.Minute)) := by
    funext c
    rw [Currency.isStale_window]
    by_cases h : now - c.UpdatedAt > 30 * time.Minute
    · have h2 : ¬ (now - c.UpdatedAt ≤ 30 * time.Minute) := not_le.mpr h
      rw [decide_eq_true h, decide_eq_false h2]; rfl
    · have h2 : now - c.UpdatedAt ≤ 30 * time.Minute := not_lt.mp h
      rw [decide_eq_false h, decide_eq_true h2]; rfl
  have hstored : ∀ c, c ∈ repo.FindAll.1 ↔ ∃ id, repo.currencies.lookup id = some c := by
    intro c
    simp only [MemoryRepository.FindAll, List.mem_map]
    constructor
    · rintro ⟨e, he, rfl⟩
      exact ⟨e.1, AList.mem_lookup_iff.mpr he⟩
    · rintro ⟨id, hid⟩
      exact ⟨⟨id, c⟩, AList.mem_lookup_iff.mp hid, rfl⟩
  refine ⟨by simp [GetAllCurrenciesHandler.fromRepository, MemoryRepository.FindAll],
    by simp [GetAllCurrenciesHandler.fromRepository, MemoryRepository.FindAll],
    by simp [GetAllCurrenciesHandler.fromRepository, MemoryRepository.FindAll],
    by simp [GetAllCurrenciesHandler.fromRepository, MemoryRepository.FindAll],
    ?_, ?_, ?_, ?_⟩
  · intro hs
    simp [GetAllCurrenciesHandler.fromRepository, MemoryRepository.FindAll, hs, hfilter]
  · intro hs c
    rw [← hstored c]
    simp [GetAllCurrenciesHandler.fromRepository, MemoryRepository.FindAll, hs, hfilter]
  · intro hs
    simp [GetAllCurrenciesHandler.fromRepository, MemoryRepository.FindAll, hs]
  · intro hs c
    rw [← hstored c]
    simp [GetAllCurrenciesHandler.fromRepository, MemoryRepository.FindAll, hs]

/-- C10, at an instance: at minute 31 the store holds EUR, updated 31 minutes ago, and
USD, updated 29 minutes ago; the listing without stale entities is USD alone, the listing
with them is both. -/
theorem C10_listing_from_repository_witness :
    (GetAllCurrenciesHandler.Handle Example.storeTwoAges NewMemoryCache (31 * time.Minute)
        ⟨false, false⟩).result.Currencies = [Example.usd (2 * time.Minute)]
    ∧ (GetAllCurrenciesHandler.Handle Example.storeTwoAges NewMemoryCache (31 * time.Minute)
        ⟨false, false⟩).result.Count = 1
    ∧ (GetAllCurrenciesHandler.Handle Example.storeTwoAges NewMemoryCache (31 * time.Minute)
        ⟨true, true⟩).result.Currencies = [Example.usd (2 * time.Minute), Example.eur 0] :=
  ⟨((C10_listing_from_repository Example.storeTwoAges NewMemoryCache (31 * time.Minute)
      ⟨false, false⟩ (Or.inl rfl)).2.2.2.2.1 rfl).trans (by decide),
   by decide,
   ((C10_listing_from_repository Example.storeTwoAges NewMemoryCache (31 * time.Minute)
      ⟨true, true⟩ (Or.inr (by decide))).2.2.2.2.2.2.1 rfl).trans (by decide)⟩

/-! ## The query for an unknown identifier -/

/-- A non-nil entity is rejected by `Save` exactly when it is not valid. -/
theorem MemoryRepository.save_err_iff (r : MemoryRepository) (now : Time) (c : Currency) :
    (r.Save now (some c)).err ≠ none ↔ c.IsValid = false := by
  cases h : c.IsValid <;> simp [MemoryRepository.Save, h]

/-- The store after the loop, at any identifier: the last valid scraped entity of that
identifier, stamped with the instant of the save, or what the store held if there is
none. -/
theorem RefreshCurrenciesHandler.loop_repo_last (now : Time) (cs : List Currency) (id : String) :
    ∀ st : RefreshState,
      (cs.foldl (RefreshCurrenciesHandler.saveOne now) st).repo.currencies.lookup id
        = match (cs.filter (fun c => c.IsValid && c.ID == id)).getLast? with
          | some c => some { c with UpdatedAt := now }
          | none => st.repo.currencies.lookup id := by
  induction cs with
  | nil => intro st; simp
  | cons c cs ih =>
    intro st
    rw [List.foldl_cons, ih]
    cases hv : c.IsValid
    · rw [RefreshCurrenciesHandler.saveOne_invalid now st c hv,
        List.filter_cons_of_neg (by simp [hv])]
    · rw [RefreshCurrenciesHandler.saveOne_valid now st c hv]
      by_cases hid : c.ID = id
      · rw [List.filter_cons_of_pos (by simp [hv, hid]), List.getLast?_cons]
        cases hl : (cs.filter (fun c => c.IsValid && c.ID == id)).getLast? with
        | none => subst hid; simp [AList.lookup_insert]
        | some d => simp
      · rw [List.filter_cons_of_neg (by simp [hv, hid])]
        cases hl : (cs.filter (fun c => c.IsValid && c.ID == id)).getLast? with
        | none =>
          have hne : id ≠ c.ID := fun e => hid e.symm
          simp [AList.lookup_insert_ne hne]
        | some d => simp

/-- C12: `RefreshCurrenciesHandler.Handle` returns `Success = false` exactly when the
liveness probe fails or `ScrapeCurrencies` returns an error, and exactly then it returns an
error; whenever the scraper is healthy and returns entities the run returns
`Success = true` with no error, and if `Save` rejects every one of them `UpdatedCount` is 0
and the identifier list is empty.  For the BCV scraper, zero extracted entities is one of
the errors: `ScrapeCurrencies` never returns an empty list. -/
theorem C12_success_iff_persistence_reached (scraper : CurrencyScraper)
    (repo : MemoryRepository) (cache : MemoryCache) (now : Time) (cmd : RefreshCurrenciesCommand)
    (parseFloat : String → Except String float64) (scrapedAt : Time) (site : Site) :
    ((RefreshCurrenciesHandler.Handle scraper repo cache now cmd).result.Success = false
      ↔ (scraper.IsHealthy ≠ none ∨ ∃ e, scraper.ScrapeCurrencies = .error e))
    ∧ ((RefreshCurrenciesHandler.Handle scraper repo cache now cmd).result.Success = false
      ↔ (RefreshCurrenciesHandler.Handle scraper repo cache now cmd).err ≠ none)
    ∧ (∀ cs, scraper.IsHealthy = none → scraper.ScrapeCurrencies = .ok cs →
        (RefreshCurrenciesHandler.Handle scraper repo cache now cmd).result.Success = true
        ∧ (RefreshCurrenciesHandler.Handle scraper repo cache now cmd).err = none)
    ∧ (∀ cs, scraper.IsHealthy = none → scraper.ScrapeCurrencies = .ok cs →
        (∀ c ∈ cs, (repo.Save now (some c)).err ≠ none) →
        (RefreshCurrenciesHandler.Handle scraper repo cache now cmd).result.Success = true
        ∧ (RefreshCurrenciesHandler.Handle scraper repo cache now cmd).result.UpdatedCount = 0
        ∧ (RefreshCurrenciesHandler.Handle scraper repo cache now cmd).result.Currencies = [])
    ∧ BCVScraper.ScrapeCurrencies parseFloat scrapedAt site ≠ .ok [] := by
  refine ⟨?_, ?_, ?_, ?_, ?_⟩
  · cases hh : scraper.IsHealthy with
    | some err => simp [RefreshCurrenciesHandler.Handle, hh]
    | none =>
      cases hs : scraper.ScrapeCurrencies with
      | error err => simp [RefreshCurrenciesHandler.Handle, hh, hs]
      | ok cs => simp [RefreshCurrenciesHandler.Handle, hh, hs]
  · cases hh : scraper.IsHealthy with
    | some err => simp [RefreshCurrenciesHandler.Handle, hh]
    | none =>
      cases hs : scraper.ScrapeCurrencies with
      | error err => simp [RefreshCurrenciesHandler.Handle, hh, hs]
      | ok cs => simp [RefreshCurrenciesHandler.Handle, hh, hs]
  · intro cs hh hs
    rw [RefreshCurrenciesHandler.Handle_ok scraper repo cache now cmd cs hh hs]
    exact ⟨rfl, rfl⟩
  · intro cs hh hs hrej
    have hnone : cs.filter Currency.IsValid = [] := by
      apply List.filter_eq_nil_iff.mpr
      intro c hc
      have := (MemoryRepository.save_err_iff repo now c).mp (hrej c hc)
      simp [this]
    rw [RefreshCurrenciesHandler.Handle_ok scraper repo cache now cmd cs hh hs]
    simp only [RefreshCurrenciesHandler.loop_updated, hnone]
    simp
  · intro h
    rcases BCVScraper.ScrapeCurrencies_shape parseFloat scrapedAt site [] h with
      ⟨v, hv⟩ | ⟨w, hw⟩ | ⟨v, w, hvw⟩
    · simp at hv
    · simp at hw
    · simp at hvw

/-- C12, at an instance: the page reads zero for `euro` and has no `dolar` anchor; the one
extracted entity is rejected by `Save`, and the run succeeds with `UpdatedCount = 0`. -/
theorem C12_success_iff_persistence_reached_witness :
    (RefreshCurrenciesHandler.Handle
        (BCVScraper.port strconv.ParseFloat64 5 (Example.site Example.pageEuroZero))
        NewMemoryRepository NewMemoryCache 6 ⟨false⟩).result.Success = true
    ∧ (RefreshCurrenciesHandler.Handle
        (BCVScraper.port strconv.ParseFloat64 5 (Example.site Example.pageEuroZero))
        NewMemoryRepository NewMemoryCache 6 ⟨false⟩).result.UpdatedCount = 0 :=
  ⟨((C12_success_iff_persistence_reached
        (BCVScraper.port strconv.ParseFloat64 5 (Example.site Example.pageEuroZero))
        NewMemoryRepository NewMemoryCache 6 ⟨false⟩ strconv.ParseFloat64 5
        (Example.site Example.pageEuroZero)).2.2.2.1
      [NewCurrency 5 "EUR" "Euro" float64.zero BCVScraper.baseURL] (by decide) (by rfl)
      (by decide)).1,
   ((C12_success_iff_persistence_reached
        (BCVScraper.port strconv.ParseFloat64 5 (Example.site Example.pageEuroZero))
        NewMemoryRepository NewMemoryCache 6 ⟨false⟩ strconv.ParseFloat64 5
        (Example.site Example.pageEuroZero)).2.2.2.1
      [NewCurrency 5 "EUR" "Euro" float64.zero BCVScraper.baseURL] (by decide) (by rfl)
      (by decide)).2.1⟩

/-- C13: for every list of entities the scraper returns, the identifier list of the
refresh result is the sequence of the ids of the valid ones, in the order of the list, and
`UpdatedCount` is its length; when `Handle` returns, the store holds under every listed id
the last valid extracted entity of that id, stamped with the instant of the save, and
holds under every id that is not listed what it held before. -/
theorem C13_updated_identifiers (scraper : CurrencyScraper) (repo : MemoryRepository)
    (cache : MemoryCache) (now : Time) (cmd : RefreshCurrenciesCommand) (cs : List Currency)
    (hh : scraper.IsHealthy = none) (hs : scraper.ScrapeCurrencies = .ok cs) :
    (RefreshCurrenciesHandler.Handle scraper repo cache now cmd).result.Currencies
        = (cs.filter Currency.IsValid).map Currency.ID
    ∧ (RefreshCurrenciesHandler.Handle scraper repo cache now cmd).result.UpdatedCount
        = ((cs.filter Currency.IsValid).map Currency.ID).length
    ∧ (∀ id, id ∈ (RefreshCurrenciesHandler.Handle scraper repo cache now cmd).result.Currencies →
        ∃ c, c ∈ cs ∧ c.IsValid = true ∧ c.ID = id
          ∧ (cs.filter (fun c => c.IsValid && c.ID == id)).getLast? = some c
          ∧ (RefreshCurrenciesHandler.Handle scraper repo cache now cmd).repo.FindByID id
              = (some { c with UpdatedAt := now }, none))
    ∧ (∀ id, id ∉ (RefreshCurrenciesHandler.Handle scraper repo cache now cmd).result.Currencies →
        (RefreshCurrenciesHandler.Handle scraper repo cache now cmd).repo.currencies.lookup id
          = repo.currencies.lookup id) := by
  rw [RefreshCurrenciesHandler.Handle_ok scraper repo cache now cmd cs hh hs]
  simp only [RefreshCurrenciesHandler.loop_updated, List.nil_append]
  refine ⟨trivial, trivial, ?_, ?_⟩
  · intro id hid
    obtain ⟨d, hd, hdid⟩ := List.mem_map.mp hid
    have hdv : d.IsValid = true := (List.mem_filter.mp hd).2
    have hmemf : d ∈ cs.filter (fun c => c.IsValid && c.ID == id) :=
      List.mem_filter.mpr ⟨(List.mem_filter.mp hd).1, by simp [hdv, hdid]⟩
    cases hl : (cs.filter (fun c => c.IsValid && c.ID == id)).getLast? with
    | none =>
      rw [List.getLast?_eq_none_iff] at hl
      rw [hl] at hmemf
      simp at hmemf
    | some c =>
      have hcm : c ∈ cs.filter (fun c => c.IsValid && c.ID == id) := by
        obtain ⟨ys, hys⟩ := List.getLast?_eq_some_iff.mp hl
        rw [hys]; simp
      have hcp := List.mem_filter.mp hcm
      have hcv : c.IsValid = true ∧ c.ID = id := by simpa using hcp.2
      have hne : id ≠ "" := by
        have := (Currency.isValid_iff c).mp hcv.1
        rw [hcv.2] at this
        exact this.1
      refine ⟨c, hcp.1, hcv.1, hcv.2, rfl, ?_⟩
      simp [MemoryRepository.FindByID, hne, RefreshCurrenciesHandler.loop_repo_last, hl]
  · intro id hid
    have hempty : cs.filter (fun c => c.IsValid && c.ID == id) = [] := by
      apply List.filter_eq_nil_iff.mpr
      intro c hc hp
      have hcv : c.IsValid = true ∧ c.ID = id := by simpa using hp
      exact hid (List.mem_map.mpr ⟨c, List.mem_filter.mpr ⟨hc, hcv.1⟩, hcv.2⟩)
    simp [RefreshCurrenciesHandler.loop_repo_last, hempty]

/-- C13, at an instance: a scraper returns EUR, then an entity without name, then USD; the
result lists EUR and USD and the store holds the scraped EUR. -/
theorem C13_updated_identifiers_witness :
    (RefreshCurrenciesHandler.Handle
        { IsHealthy := none
          ScrapeCurrencies := .ok [Example.eur 5, ⟨"GBP", "", Example.rate144, 5, "x"⟩,
            Example.usd 5] }
        NewMemoryRepository NewMemoryCache 6 ⟨false⟩).result.Currencies = ["EUR", "USD"]
    ∧ (RefreshCurrenciesHandler.Handle
        { IsHealthy := none
          ScrapeCurrencies := .ok [Example.eur 5, ⟨"GBP", "", Example.rate144, 5, "x"⟩,
            Example.usd 5] }
        NewMemoryRepository NewMemoryCache 6 ⟨false⟩).result.UpdatedCount = 2 :=
  ⟨((C13_updated_identifiers
        { IsHealthy := none
          ScrapeCurrencies := .ok [Example.eur 5, ⟨"GBP", "", Example.rate144, 5, "x"⟩,
            Example.usd 5] }
        NewMemoryRepository NewMemoryCache 6 ⟨false⟩ _ rfl rfl).1).trans (by decide),
   ((C13_updated_identifiers
        { IsHealthy := none
          ScrapeCurrencies := .ok [Example.eur 5, ⟨"GBP", "", Example.rate144, 5, "x"⟩,
            Example.usd 5] }
        NewMemoryRepository NewMemoryCache 6 ⟨false⟩ _ rfl rfl).2.1).trans (by decide)⟩

/-! ## A TTL that is not positive -/

/-- C14 (as stated, refuted): `Set` with TTL `-5` at instant 100 on the empty cache returns
no error and stores the entry, with expiry 95; `Set` with TTL 0 stores an entry that a
`Get` at the same instant returns. -/
theorem C14_set_accepts_nonpositive_ttl :
    (NewMemoryCache.Set 100 "k" (Payload.other "v") (-5)).err = none
    ∧ (NewMemoryCache.Set 100 "k" (Payload.other "v") (-5)).cache.items.lookup "k"
        = some { value := Payload.other "v", expiresAt := 95 }
    ∧ NewMemoryCache.items.lookup "k" = none
    ∧ (NewMemoryCache.Set 100 "k" (Payload.other "v") 0).err = none
    ∧ ((NewMemoryCache.Set 100 "k" (Payload.other "v") 0).cache.Get 100 "k").value
        = Payload.other "v" := by
  decide

/-- C14 (amended): in every cache state, for every key and value and every TTL `t <= 0`,
`Set` at instant `s` returns no error and stores the entry with expiry `s + t`, replacing
what the key held, and leaves the counters alone; every `Get` at an instant after `s + t`
misses and schedules the removal of the key, so for `t < 0` every `Get` from `s` on
misses. -/
theorem C14_set_nonpositive_ttl (c : MemoryCache) (key : String) (v : Payload) (t : Duration)
    (s now : Time) (_ht : t ≤ 0) :
    (c.Set s key v t).err = none
    ∧ (c.Set s key v t).cache.items.lookup key = some { value := v, expiresAt := s + t }
    ∧ (c.Set s key v t).cache.stats = c.stats
    ∧ (s + t < now →
        ((c.Set s key v t).cache.Get now key).value = Payload.nil
        ∧ ((c.Set s key v t).cache.Get now key).spawned = some key)
    ∧ (t < 0 → s ≤ now →
        ((c.Set s key v t).cache.Get now key).value = Payload.nil
        ∧ ((c.Set s key v t).cache.Get now key).spawned = some key) := by
  have hexp : ∀ h : s + t < now,
      ((c.Set s key v t).cache.Get now key).value = Payload.nil
      ∧ ((c.Set s key v t).cache.Get now key).spawned = some key := by
    intro h
    simp [MemoryCache.Set, MemoryCache.Get, AList.lookup_insert, cacheItem.isExpired, h]
  refine ⟨rfl, by simp [MemoryCache.Set, AList.lookup_insert], rfl, hexp, ?_⟩
  intro hneg hle
  exact hexp (by linarith)

/-- C14 (amended), at an instance: TTL `-5` set at instant 100, read at instant 100. -/
theorem C14_set_nonpositive_ttl_witness :
    (-5 : Duration) ≤ 0
    ∧ (NewMemoryCache.Set 100 "k" (Payload.other "v") (-5)).err = none
    ∧ ((NewMemoryCache.Set 100 "k" (Payload.other "v") (-5)).cache.Get 100 "k").value
        = Payload.nil :=
  ⟨by decide,
   (C14_set_nonpositive_ttl NewMemoryCache "k" (Payload.other "v") (-5) 100 100 (by decide)).1,
   ((C14_set_nonpositive_ttl NewMemoryCache "k" (Payload.other "v") (-5) 100 100
      (by decide)).2.2.2.2 (by decide) (by decide)).1⟩

/-! ## Saving a valid entity -/

/-- C15: in every store state, `Save` of an entity `e` with non-empty id, non-empty name
and value `> 0` at instant `now` returns no error; afterwards `FindByID(e.ID)` returns,
without error, `e` with `UpdatedAt = now` (id, name, value and source are those of `e`,
whatever the store held under that id), and `FindByID` of every other id answers as
before. -/
theorem C15_save_replaces_snapshot (r : MemoryRepository) (now : Time) (e : Currency)
    (hid : e.ID ≠ "") (hname : e.Name ≠ "") (hval : e.Value.gtZero = true) :
    (r.Save now (some e)).err = none
    ∧ (r.Save now (some e)).repo.FindByID e.ID
        = (some { ID := e.ID, Name := e.Name, Value := e.Value, UpdatedAt := now
                  Source := e.Source }, none)
    ∧ ∀ id, id ≠ e.ID → (r.Save now (some e)).repo.FindByID id = r.FindByID id := by
  have hv : e.IsValid = true := (Currency.isValid_iff e).mpr ⟨hid, hname, hval⟩
  refine ⟨by simp [MemoryRepository.Save, hv], ?_, ?_⟩
  · simp [MemoryRepository.Save, hv, MemoryRepository.FindByID, hid, AList.lookup_insert]
  · intro id hne
    simp [MemoryRepository.Save, hv, MemoryRepository.FindByID, AList.lookup_insert_ne hne]

/-- C15, at an instance: the store holds USD and EUR at rate 144.3732 from the source; a
EUR snapshot with another name, rate and source is saved at instant 9. -/
theorem C15_save_replaces_snapshot_witness :
    ((Example.store [Example.usd 1, Example.eur 1]).Save 9
        (some ⟨"EUR", "Euro (ref)", Example.rate168, 3, "manual"⟩)).repo.FindByID "EUR"
      = (some ⟨"EUR", "Euro (ref)", Example.rate168, 9, "manual"⟩, none)
    ∧ ((Example.store [Example.usd 1, Example.eur 1]).Save 9
        (some ⟨"EUR", "Euro (ref)", Example.rate168, 3, "manual"⟩)).repo.FindByID "USD"
      = (some (Example.usd 1), none) :=
  ⟨(C15_save_replaces_snapshot (Example.store [Example.usd 1, Example.eur 1]) 9
      ⟨"EUR", "Euro (ref)", Example.rate168, 3, "manual"⟩ (by decide) (by decide)
      (by decide)).2.1,
   ((C15_save_replaces_snapshot (Example.store [Example.usd 1, Example.eur 1]) 9
      ⟨"EUR", "Euro (ref)", Example.rate168, 3, "manual"⟩ (by decide) (by decide)
      (by decide)).2.2 "USD" (by decide)).trans (by decide)⟩

/-! ## Clear, Delete and the other keys -/

/-- C18: in every cache state, `Clear` returns no error, and afterwards `GetStats` reports
`Keys = 0`, `Hits = 0` and `Misses = 0`, and at every instant `Get` of every key returns
`nil` as a miss and `Exists` of every key returns false. -/
theorem C18_clear_resets (c : MemoryCache) :
    c.Clear.err = none
    ∧ c.Clear.cache.GetStats = ({ Hits := 0, Misses := 0, Keys := 0 }, none)
    ∧ (∀ (now : Time) (key : String),
        (c.Clear.cache.Get now key).value = Payload.nil
        ∧ (c.Clear.cache.Get now key).cache.stats.Misses = 1
        ∧ (c.Clear.cache.Get now key).cache.stats.Hits = 0
        ∧ (c.Clear.cache.Exists now key).found = false) := by
  refine ⟨rfl, by simp [MemoryCache.Clear, MemoryCache.GetStats], ?_⟩
  intro now key
  simp [MemoryCache.Clear, MemoryCache.Get, MemoryCache.Exists]

/-- C19: in every cache state, `Delete` of a key that has no entry returns no error and
leaves the cache, entries and counters, as it was. -/
theorem C19_delete_absent_key (c : MemoryCache) (key : String)
    (h : c.items.lookup key = none) :
    (c.Delete key).err = none ∧ (c.Delete key).cache = c := by
  refine ⟨rfl, ?_⟩
  have hnot : key ∉ c.items := AList.lookup_eq_none.mp h
  have herase : c.items.erase key = c.items :=
    AList.ext (List.kerase_of_not_mem_keys hnot)
  cases c with
  | mk items stats =>
    simp only [MemoryCache.Delete]
    simp only at herase
    rw [herase]

/-- C19, at an instance: a cache that holds `a` is asked to delete `b`. -/
theorem C19_delete_absent_key_witness :
    ((NewMemoryCache.Set 1 "a" (Payload.other "v") 5).cache.Delete "b").cache.items.lookup "a"
      = some { value := Payload.other "v", expiresAt := 6 } :=
  ((congrArg (fun c => c.items.lookup "a")
      (C19_delete_absent_key (NewMemoryCache.Set 1 "a" (Payload.other "v") 5).cache "b"
        (by decide)).2).trans (by decide))

/-- What `Get` and `Exists` of a key return depends on the cache through the entry under
that key only. -/
theorem MemoryCache.read_congr (c d : MemoryCache) (t : Time) (k : String)
    (h : d.items.lookup k = c.items.lookup k) :
    (d.Get t k).value = (c.Get t k).value
    ∧ (d.Get t k).err = (c.Get t k).err
    ∧ (d.Get t k).spawned = (c.Get t k).spawned
    ∧ d.Exists t k = c.Exists t k := by
  unfold MemoryCache.Get MemoryCache.Exists
  rw [h]
  cases c.items.lookup k with
  | none => simp
  | some item => cases hx : item.isExpired t <;> simp [hx]

/-- C20: in every cache state and for all keys `k ≠ k'`, each of the steps `Set(k, v, ttl)`,
`Get(k)`, `Delete(k)`, and the removal of `k` that a read schedules, leaves the entry under
`k'` (its value and its expiry, or its absence) as it was; so at every instant `Get(k')`
returns the same value and schedules the same removal, and `Exists(k')` returns the same,
before and after the step. -/
theorem C20_no_cross_key_interference (c : MemoryCache) (k k' : String) (v : Payload)
    (ttl : Duration) (s : Time) (hne : k ≠ k') :
    ((c.Set s k v ttl).cache.items.lookup k' = c.items.lookup k'
      ∧ (c.Get s k).cache.items.lookup k' = c.items.lookup k'
      ∧ (c.Delete k).cache.items.lookup k' = c.items.lookup k'
      ∧ (c.runSpawned k).items.lookup k' = c.items.lookup k')
    ∧ (∀ t : Time,
        ((c.Set s k v ttl).cache.Get t k').value = (c.Get t k').value
        ∧ ((c.Get s k).cache.Get t k').value = (c.Get t k').value
        ∧ ((c.Delete k).cache.Get t k').value = (c.Get t k').value
        ∧ ((c.runSpawned k).Get t k').value = (c.Get t k').value)
    ∧ (∀ t : Time,
        (c.Set s k v ttl).cache.Exists t k' = c.Exists t k'
        ∧ (c.Get s k).cache.Exists t k' = c.Exists t k'
        ∧ (c.Delete k).cache.Exists t k' = c.Exists t k'
        ∧ (c.runSpawned k).Exists t k' = c.Exists t k') := by
  have hne' : k' ≠ k := fun e => hne e.symm
  have hset : (c.Set s k v ttl).cache.items.lookup k' = c.items.lookup k' := by
    simp [MemoryCache.Set, AList.lookup_insert_ne hne']
  have hget : (c.Get s k).cache.items.lookup k' = c.items.lookup k' := by
    unfold MemoryCache.Get
    cases c.items.lookup k with
    | none => rfl
    | some item => cases hx : item.isExpired s <;> simp [hx]
  have hdel : (c.Delete k).cache.items.lookup k' = c.items.lookup k' := by
    simp [MemoryCache.Delete, AList.lookup_erase_ne hne']
  have hrun : (c.runSpawned k).items.lookup k' = c.items.lookup k' := by
    simp [MemoryCache.runSpawned, AList.lookup_erase_ne hne']
  refine ⟨⟨hset, hget, hdel, hrun⟩, ?_, ?_⟩
  · intro t
    exact ⟨(MemoryCache.read_congr c _ t k' hset).1, (MemoryCache.read_congr c _ t k' hget).1,
      (MemoryCache.read_congr c _ t k' hdel).1, (MemoryCache.read_congr c _ t k' hrun).1⟩
  · intro t
    exact ⟨(MemoryCache.read_congr c _ t k' hset).2.2.2,
      (MemoryCache.read_congr c _ t k' hget).2.2.2,
      (MemoryCache.read_congr c _ t k' hdel).2.2.2,
      (MemoryCache.read_congr c _ t k' hrun).2.2.2⟩

/-- C20, at an instance: a cache holds `a`; `Set`, then `Delete`, of `b` leave what `Get` of
`a` returns. -/
theorem C20_no_cross_key_interference_witness :
    ((NewMemoryCache.Set 1 "a" (Payload.other "v") 5).cache.Set 2 "b" (Payload.other "w")
        5).cache.items.lookup "a"
      = some { value := Payload.other "v", expiresAt := 6 }
    ∧ (((NewMemoryCache.Set 1 "a" (Payload.other "v") 5).cache.Delete "b").cache.Get 3
        "a").value = Payload.other "v" :=
  ⟨((C20_no_cross_key_interference (NewMemoryCache.Set 1 "a" (Payload.other "v") 5).cache
      "b" "a" (Payload.other "w") 5 2 (by decide)).1.1).trans (by decide),
   (((C20_no_cross_key_interference (NewMemoryCache.Set 1 "a" (Payload.other "v") 5).cache
      "b" "a" (Payload.other "w") 5 2 (by decide)).2.1 3).2.2.1).trans (by decide)⟩

/-! ## The extraction -/

/-- The extraction returns a value exactly when the anchor is found, a `strong` element is
found under it, that element has a first child, and the normalised data of that child is
accepted by the float parser; the value is the parsed one. -/
theorem BCVScraper.extractCurrencyValue_ok_iff (parseFloat : String → Except String float64)
    (bodyNode : Node) (currencyID : String) (v : float64) :
    BCVScraper.extractCurrencyValue parseFloat bodyNode currencyID = .ok v
      ↔ ∃ box strong child,
          BCVScraper.findByID bodyNode currencyID = some box
          ∧ BCVScraper.findByTag box "strong" = some strong
          ∧ strong.FirstChild = some child
          ∧ parseFloat (strings.ReplaceAllCommaDot (strings.TrimSpace child.Data)) = .ok v := by
  unfold BCVScraper.extractCurrencyValue
  cases h1 : BCVScraper.findByID bodyNode currencyID with
  | none => simp
  | some box =>
    cases h2 : BCVScraper.findByTag box "strong" with
    | none => simp [h2]
    | some strong =>
      cases h3 : strong.FirstChild with
      | none => simp [h2, h3]
      | some child =>
        cases h4 : parseFloat (strings.ReplaceAllCommaDot (strings.TrimSpace child.Data)) with
        | error e => simp [h2, h3, h4]
        | ok w => simp [h2, h3, h4]

/-- The scrape of a document in whose body both searches end on a child whose data the
float parser accepts, for every float parser: the two entities EUR then USD, with the
parsed values. -/
theorem BCVScraper.scrapeDoc_of_both (parseFloat : String → Except String float64) (now : Time)
    (site : Site) (doc body euroBox euroStrong euroText dolarBox dolarStrong dolarText : Node)
    (v w : float64)
    (hbody : BCVScraper.findByTag doc "body" = some body)
    (he1 : BCVScraper.findByID body "euro" = some euroBox)
    (he2 : BCVScraper.findByTag euroBox "strong" = some euroStrong)
    (he3 : euroStrong.FirstChild = some euroText)
    (he4 : parseFloat (strings.ReplaceAllCommaDot (strings.TrimSpace euroText.Data)) = .ok v)
    (hd1 : BCVScraper.findByID body "dolar" = some dolarBox)
    (hd2 : BCVScraper.findByTag dolarBox "strong" = some dolarStrong)
    (hd3 : dolarStrong.FirstChild = some dolarText)
    (hd4 : parseFloat (strings.ReplaceAllCommaDot (strings.TrimSpace dolarText.Data)) = .ok w) :
    BCVScraper.scrapeDoc parseFloat now doc
        = .ok [{ ID := "EUR", Name := "Euro", Value := v, UpdatedAt := now
                 Source := BCVScraper.baseURL },
               { ID := "USD", Name := "Dólar Americano", Value := w, UpdatedAt := now
                 Source := BCVScraper.baseURL }]
    ∧ (BCVScraper.getHTML site = .ok (.ok doc) →
        BCVScraper.ScrapeCurrencies parseFloat now site
          = .ok [{ ID := "EUR", Name := "Euro", Value := v, UpdatedAt := now
                   Source := BCVScraper.baseURL },
                 { ID := "USD", Name := "Dólar Americano", Value := w, UpdatedAt := now
                   Source := BCVScraper.baseURL }]) := by
  have heuro : BCVScraper.extractCurrencyValue parseFloat body "euro" = .ok v :=
    (BCVScraper.extractCurrencyValue_ok_iff parseFloat body "euro" v).mpr
      ⟨euroBox, euroStrong, euroText, he1, he2, he3, he4⟩
  have hdolar : BCVScraper.extractCurrencyValue parseFloat body "dolar" = .ok w :=
    (BCVScraper.extractCurrencyValue_ok_iff parseFloat body "dolar" w).mpr
      ⟨dolarBox, dolarStrong, dolarText, hd1, hd2, hd3, hd4⟩
  have hdoc : BCVScraper.scrapeDoc parseFloat now doc
      = .ok [{ ID := "EUR", Name := "Euro", Value := v, UpdatedAt := now
               Source := BCVScraper.baseURL },
             { ID := "USD", Name := "Dólar Americano", Value := w, UpdatedAt := now
               Source := BCVScraper.baseURL }] := by
    simp [BCVScraper.scrapeDoc, hbody, heuro, hdolar, NewCurrency]
  refine ⟨hdoc, ?_⟩
  intro hget
  simp [BCVScraper.ScrapeCurrencies, hget, hdoc]

/-- C17 (as stated, refuted): the text `-1,5` under the anchor is not rejected, the
extraction returns -1.5 without error; and the text `Inf` yields `+Inf`, which is not
finite. -/
theorem C17_negative_text_is_extracted :
    (BCVScraper.extractCurrencyValue strconv.ParseFloat64
        (Example.page [Example.anchor "euro" "-1,5"]) "euro").toOption
      = some Example.minusOneAndHalf
    ∧ Example.minusOneAndHalf.sign = true
    ∧ (BCVScraper.extractCurrencyValue strconv.ParseFloat64
        (Example.page [Example.anchor "euro" "Inf"]) "euro").toOption = some float64.posInf
    ∧ float64.posInf.IsInf = true := by
  decide

/-- C17 (amended): for every document tree and anchor, `extractCurrencyValue` returns an
error when the anchor id is not found, when no `strong` element is found under the anchor,
when that element has no first child, and when the float parser rejects the data of that
child, trimmed and with commas replaced by points; it returns a value without error
exactly when the parser accepts that text, and the value is the parsed one, of either
sign. -/
theorem C17_extraction_failures (parseFloat : String → Except String float64)
    (bodyNode : Node) (currencyID : String) :
    (BCVScraper.findByID bodyNode currencyID = none →
      ∃ e, BCVScraper.extractCurrencyValue parseFloat bodyNode currencyID = .error e)
    ∧ (∀ box, BCVScraper.findByID bodyNode currencyID = some box →
        BCVScraper.findByTag box "strong" = none →
        ∃ e, BCVScraper.extractCurrencyValue parseFloat bodyNode currencyID = .error e)
    ∧ (∀ box strong, BCVScraper.findByID bodyNode currencyID = some box →
        BCVScraper.findByTag box "strong" = some strong → strong.FirstChild = none →
        ∃ e, BCVScraper.extractCurrencyValue parseFloat bodyNode currencyID = .error e)
    ∧ (∀ box strong child perr, BCVScraper.findByID bodyNode currencyID = some box →
        BCVScraper.findByTag box "strong" = some strong → strong.FirstChild = some child →
        parseFloat (strings.ReplaceAllCommaDot (strings.TrimSpace child.Data)) = .error perr →
        ∃ e, BCVScraper.extractCurrencyValue parseFloat bodyNode currencyID = .error e)
    ∧ (∀ v, BCVScraper.extractCurrencyValue parseFloat bodyNode currencyID = .ok v
        ↔ ∃ box strong child,
            BCVScraper.findByID bodyNode currencyID = some box
            ∧ BCVScraper.findByTag box "strong" = some strong
            ∧ strong.FirstChild = some child
            ∧ parseFloat (strings.ReplaceAllCommaDot (strings.TrimSpace child.Data))
                = .ok v) := by
  refine ⟨?_, ?_, ?_, ?_, fun v => BCVScraper.extractCurrencyValue_ok_iff parseFloat bodyNode
    currencyID v⟩
  · intro h1
    simp [BCVScraper.extractCurrencyValue, h1]
  · intro box h1 h2
    simp [BCVScraper.extractCurrencyValue, h1, h2]
  · intro box strong h1 h2 h3
    simp [BCVScraper.extractCurrencyValue, h1, h2, h3]
  · intro box strong child perr h1 h2 h3 h4
    simp [BCVScraper.extractCurrencyValue, h1, h2, h3, h4]

/-- C17 (amended), at an instance: the page has no `dolar` anchor, and its `euro` anchor
carries text that is not a number. -/
theorem C17_extraction_failures_witness :
    (∃ e, BCVScraper.extractCurrencyValue strconv.ParseFloat64
        (Example.page [Example.anchor "euro" "n/d"]) "dolar" = .error e)
    ∧ (∃ e, BCVScraper.extractCurrencyValue strconv.ParseFloat64
        (Example.page [Example.anchor "euro" "n/d"]) "euro" = .error e) :=
  ⟨(C17_extraction_failures strconv.ParseFloat64 (Example.page [Example.anchor "euro" "n/d"])
      "dolar").1 (by rfl),
   (C17_extraction_failures strconv.ParseFloat64 (Example.page [Example.anchor "euro" "n/d"])
      "euro").2.2.2.1 (Example.anchor "euro" "n/d")
      (.mk .ElementNode "strong" [] [.mk .TextNode "n/d" [] []]) (.mk .TextNode "n/d" [] [])
      "invalid syntax" (by rfl) (by rfl) (by rfl) (by rfl)⟩

/-! ## The hit and miss counters -/

/-- The counters after a step other than `Clear` and `Get` are the counters before it. -/
theorem CacheWorld.step_stats (w w1 : CacheWorld) (s : CacheStep) (h : w.step s = some w1)
    (hget : ∀ t k, s ≠ CacheStep.callGet t k) (hclear : s ≠ CacheStep.callClear) :
    w1.cache.stats = w.cache.stats := by
  cases s with
  | callSet now key value ttl =>
    simp only [CacheWorld.step, Option.some.injEq] at h
    rw [← h]; rfl
  | callGet now key => exact absurd rfl (hget now key)
  | callDelete key =>
    simp only [CacheWorld.step, Option.some.injEq] at h
    rw [← h]; rfl
  | callExists now key =>
    simp only [CacheWorld.step, Option.some.injEq] at h
    rw [← h]
  | callClear => exact absurd rfl hclear
  | callGetStats =>
    simp only [CacheWorld.step, Option.some.injEq] at h
    rw [← h]
  | sweep now =>
    simp only [CacheWorld.step, Option.some.injEq] at h
    rw [← h]; rfl
  | removal key =>
    simp only [CacheWorld.step] at h
    split at h
    · simp only [Option.some.injEq] at h
      rw [← h]; rfl
    · simp at h

/-- What a `Get` does to the counters and to the map, by the state of the entry. -/
theorem MemoryCache.get_cases (c : MemoryCache) (now : Time) (key : String) :
    (c.items.lookup key = none →
      (c.Get now key).value = Payload.nil
      ∧ (c.Get now key).cache.stats.Misses = c.stats.Misses + 1
      ∧ (c.Get now key).cache.stats.Hits = c.stats.Hits
      ∧ (c.Get now key).spawned = none)
    ∧ (∀ item, c.items.lookup key = some item → item.isExpired now = true →
      (c.Get now key).value = Payload.nil
      ∧ (c.Get now key).cache.stats.Misses = c.stats.Misses + 1
      ∧ (c.Get now key).cache.stats.Hits = c.stats.Hits
      ∧ (c.Get now key).spawned = some key)
    ∧ (∀ item, c.items.lookup key = some item → item.isExpired now = false →
      (c.Get now key).value = item.value
      ∧ (c.Get now key).cache.stats.Hits = c.stats.Hits + 1
      ∧ (c.Get now key).cache.stats.Misses = c.stats.Misses
      ∧ (c.Get now key).spawned = none)
    ∧ (c.Get now key).cache.items = c.items
    ∧ (c.Get now key).cache.stats.Keys = c.stats.Keys
    ∧ (c.Get now key).err = none := by
  refine ⟨?_, ?_, ?_, ?_, ?_, ?_⟩
  · intro h
    simp [MemoryCache.Get, h]
  · intro item h hx
    simp [MemoryCache.Get, h, hx]
  · intro item h hx
    simp [MemoryCache.Get, h, hx]
  all_goals
    unfold MemoryCache.Get
    cases h : c.items.lookup key with
    | none => simp
    | some item => cases hx : item.isExpired now <;> simp [hx]

/-- A `Get` that runs as one step, with no other call between its read and its write of
the counter, changes exactly one counter by exactly one and leaves the map as it is.  It
adds one to `Hits` and returns the stored value when the key holds an unexpired entry, and
adds one to `Misses` and returns `nil` when the key holds no entry or an expired one; in
the latter case the expired entry is still in the map when `Get` returns and its removal
is handed to a goroutine.  A step other than `Get` and `Clear` leaves both counters as they
are.  The counters are integers without bound here. -/
theorem MemoryCache.get_counters_in_isolation (c : MemoryCache) (now : Time) (key : String) :
    (((c.Get now key).cache.stats.Hits = c.stats.Hits + 1
        ∧ (c.Get now key).cache.stats.Misses = c.stats.Misses)
      ∨ ((c.Get now key).cache.stats.Hits = c.stats.Hits
        ∧ (c.Get now key).cache.stats.Misses = c.stats.Misses + 1))
    ∧ (c.Get now key).cache.items = c.items
    ∧ (∀ item, c.items.lookup key = some item → item.isExpired now = false →
        (c.Get now key).value = item.value
        ∧ (c.Get now key).cache.stats.Hits = c.stats.Hits + 1
        ∧ (c.Get now key).cache.stats.Misses = c.stats.Misses)
    ∧ (c.items.lookup key = none →
        (c.Get now key).value = Payload.nil
        ∧ (c.Get now key).cache.stats.Misses = c.stats.Misses + 1
        ∧ (c.Get now key).cache.stats.Hits = c.stats.Hits)
    ∧ (∀ item, c.items.lookup key = some item → item.isExpired now = true →
        (c.Get now key).value = Payload.nil
        ∧ (c.Get now key).cache.stats.Misses = c.stats.Misses + 1
        ∧ (c.Get now key).cache.stats.Hits = c.stats.Hits
        ∧ (c.Get now key).cache.items.lookup key = some item
        ∧ (c.Get now key).spawned = some key)
    ∧ ((c.Get now key).value ≠ Payload.nil →
        (c.Get now key).cache.stats.Hits = c.stats.Hits + 1
        ∧ (c.Get now key).cache.stats.Misses = c.stats.Misses)
    ∧ (∀ (w w1 : CacheWorld) (s : CacheStep), w.step s = some w1 →
        (∀ t k, s ≠ CacheStep.callGet t k) → s ≠ CacheStep.callClear →
        w1.cache.stats = w.cache.stats)
    ∧ (∀ (w w1 : CacheWorld) (s : CacheStep), w.step s = some w1 → s ≠ CacheStep.callClear →
        w.cache.stats.Hits ≤ w1.cache.stats.Hits
        ∧ w.cache.stats.Misses ≤ w1.cache.stats.Misses) := by
  obtain ⟨hnone, hexp, hlive, hitems, _, _⟩ := MemoryCache.get_cases c now key
  have hone : ((c.Get now key).cache.stats.Hits = c.stats.Hits + 1
        ∧ (c.Get now key).cache.stats.Misses = c.stats.Misses)
      ∨ ((c.Get now key).cache.stats.Hits = c.stats.Hits
        ∧ (c.Get now key).cache.stats.Misses = c.stats.Misses + 1) := by
    cases h : c.items.lookup key with
    | none => exact Or.inr ⟨(hnone h).2.2.1, (hnone h).2.1⟩
    | some item =>
      cases hx : item.isExpired now
      · exact Or.inl ⟨(hlive item h hx).2.1, (hlive item h hx).2.2.1⟩
      · exact Or.inr ⟨(hexp item h hx).2.2.1, (hexp item h hx).2.1⟩
  refine ⟨hone, hitems, ?_, ?_, ?_, ?_, CacheWorld.step_stats, ?_⟩
  · intro item h hx
    exact ⟨(hlive item h hx).1, (hlive item h hx).2.1, (hlive item h hx).2.2.1⟩
  · intro h
    exact ⟨(hnone h).1, (hnone h).2.1, (hnone h).2.2.1⟩
  · intro item h hx
    exact ⟨(hexp item h hx).1, (hexp item h hx).2.1, (hexp item h hx).2.2.1,
      by rw [hitems]; exact h, (hexp item h hx).2.2.2⟩
  · intro hv
    cases h : c.items.lookup key with
    | none => exact absurd (hnone h).1 hv
    | some item =>
      cases hx : item.isExpired now
      · exact ⟨(hlive item h hx).2.1, (hlive item h hx).2.2.1⟩
      · exact absurd (hexp item h hx).1 hv
  · intro w w1 s h hclear
    by_cases hg : ∃ t k, s = CacheStep.callGet t k
    · obtain ⟨t, k, rfl⟩ := hg
      simp only [CacheWorld.step, Option.some.injEq] at h
      rw [← h]
      obtain ⟨hn, he, hl, _, _, _⟩ := MemoryCache.get_cases w.cache t k
      cases hlk : w.cache.items.lookup k with
      | none =>
        rw [(hn hlk).2.1, (hn hlk).2.2.1]
        exact ⟨le_refl _, by linarith⟩
      | some item =>
        cases hx : item.isExpired t
        · rw [(hl item hlk hx).2.1, (hl item hlk hx).2.2.1]
          exact ⟨by linarith, le_refl _⟩
        · rw [(he item hlk hx).2.1, (he item hlk hx).2.2.1]
          exact ⟨le_refl _, by linarith⟩
    · have hg2 : ∀ t k, s ≠ CacheStep.callGet t k := fun t k e => hg ⟨t, k, e⟩
      rw [CacheWorld.step_stats w w1 s h hg2 hclear]
      exact ⟨le_refl _, le_refl _⟩

/-! ## The sweep -/

/-- Deleting a key from a map keeps the entries of the other keys, in order. -/
theorem GoMap.kerase_eq_filter {β : Type} (a : String) :
    ∀ l : List (Sigma (fun _ : String => β)), l.NodupKeys →
      List.kerase a l = l.filter (fun e => decide (e.1 ≠ a)) := by
  intro l
  induction l with
  | nil => intro _; rfl
  | cons s l ih =>
    intro nd
    obtain ⟨hs, hl⟩ := List.nodupKeys_cons.mp nd
    by_cases h : a = s.1
    · rw [List.kerase_cons_eq h]
      have hdrop : decide (s.1 ≠ a) = false := by simp [h]
      rw [List.filter_cons_of_neg (by simp [hdrop])]
      symm
      apply List.filter_eq_self.mpr
      intro e he
      have hk : e.1 ∈ l.keys := List.mem_keys_of_mem he
      have hne : e.1 ≠ a := by
        intro heq
        apply hs
        rw [← h, ← heq]
        exact hk
      simp [hne]
    · rw [List.kerase_cons_ne h]
      have hne : s.1 ≠ a := fun e => h e.symm
      rw [List.filter_cons_of_pos (by simp [hne]), ih hl]

/-- The entries after the loop of the sweep over a list of entries: those whose key is
not the key of an expired entry of the list. -/
theorem MemoryCache.cleanup_loop_entries (now : Time)
    (l : List (Sigma (fun _ : String => cacheItem))) :
    ∀ m : GoMap cacheItem,
      (l.foldl (fun items e => if e.2.isExpired now then items.erase e.1 else items) m).entries
        = m.entries.filter
            (fun e => !(l.any (fun e' => decide (e'.1 = e.1) && e'.2.isExpired now))) := by
  induction l with
  | nil =>
    intro m
    simp
  | cons x l ih =>
    intro m
    rw [List.foldl_cons, ih]
    cases hx : x.2.isExpired now
    · simp [hx]
    · simp only [hx, if_true]
      show (List.kerase x.1 m.entries).filter _ = _
      rw [GoMap.kerase_eq_filter x.1 m.entries m.nodupKeys, List.filter_filter]
      apply List.filter_congr
      intro e _
      by_cases hk : x.1 = e.1
      · simp [hk, hx]
      · have hk2 : e.1 ≠ x.1 := fun h => hk h.symm
        simp [hk, hk2, hx]

/-- The map after the sweep holds the unexpired entries, in the order they had. -/
theorem MemoryCache.cleanup_entries (c : MemoryCache) (now : Time) :
    (c.cleanup now).items.entries = c.items.entries.filter (fun e => !e.2.isExpired now) := by
  unfold MemoryCache.cleanup
  simp only []
  rw [MemoryCache.cleanup_loop_entries]
  apply List.filter_congr
  intro e he
  congr 1
  cases hx : e.2.isExpired now
  · rw [List.any_eq_false]
    intro e' he'
    by_cases hk : e'.1 = e.1
    · have := c.items.nodupKeys.eq_of_fst_eq he' he hk
      rw [this]
      simp [hx]
    · simp [hk]
  · rw [List.any_eq_true]
    exact ⟨e, he, by simp [hx]⟩

/-- The entry of a key after the sweep: the entry before it, if that one is unexpired. -/
theorem MemoryCache.cleanup_lookup (c : MemoryCache) (now : Time) (k : String)
    (item : cacheItem) :
    (c.cleanup now).items.lookup k = some item
      ↔ c.items.lookup k = some item ∧ item.isExpired now = false := by
  have h1 : (c.cleanup now).items.lookup k = some item
      ↔ (⟨k, item⟩ : Sigma (fun _ : String => cacheItem)) ∈ (c.cleanup now).items.entries :=
    AList.mem_lookup_iff
  have h2 : c.items.lookup k = some item
      ↔ (⟨k, item⟩ : Sigma (fun _ : String => cacheItem)) ∈ c.items.entries :=
    AList.mem_lookup_iff
  rw [h1, h2, MemoryCache.cleanup_entries, List.mem_filter]
  simp

/-- C22: in every cache state and for every sweep instant `now`, after `cleanup` the map
holds under each key exactly the entry it held before if that entry is not expired at
`now`, with the same value and expiry, and no entry if it held an expired one or none;
the counters are as before; and the `Keys` that `GetStats` reports after the sweep is the
number of entries that were not expired at `now`. -/
theorem C22_sweep (c : MemoryCache) (now : Time) :
    (∀ k item, (c.cleanup now).items.lookup k = some item
        ↔ c.items.lookup k = some item ∧ item.isExpired now = false)
    ∧ (∀ k item, (c.cleanup now).items.lookup k = some item → ¬ (now > item.expiresAt))
    ∧ (∀ k item, c.items.lookup k = some item → now > item.expiresAt →
        (c.cleanup now).items.lookup k = none)
    ∧ (∀ k item, c.items.lookup k = some item → ¬ (now > item.expiresAt) →
        (c.cleanup now).items.lookup k = some item)
    ∧ (∀ k, c.items.lookup k = none → (c.cleanup now).items.lookup k = none)
    ∧ (c.cleanup now).stats = c.stats
    ∧ (c.cleanup now).GetStats.1.Hits = c.stats.Hits
    ∧ (c.cleanup now).GetStats.1.Misses = c.stats.Misses
    ∧ (c.cleanup now).GetStats.1.Keys
        = ((c.items.entries.filter (fun e => !e.2.isExpired now)).length : Int) := by
  have hiff := MemoryCache.cleanup_lookup c now
  refine ⟨hiff, ?_, ?_, ?_, ?_, rfl, rfl, rfl, ?_⟩
  · intro k item h
    have := ((hiff k item).mp h).2
    simpa [cacheItem.isExpired] using this
  · intro k item h hexp
    cases hl : (c.cleanup now).items.lookup k with
    | none => rfl
    | some item' =>
      obtain ⟨h1, h2⟩ := (hiff k item').mp hl
      rw [h] at h1
      have heq : item = item' := Option.some.inj h1
      rw [← heq] at h2
      have hx : item.isExpired now = true := by simp [cacheItem.isExpired, hexp]
      rw [hx] at h2
      exact absurd h2 (by decide)
  · intro k item h hlive
    exact (hiff k item).mpr ⟨h, by simp [cacheItem.isExpired]; exact not_lt.mp hlive⟩
  · intro k h
    cases hl : (c.cleanup now).items.lookup k with
    | none => rfl
    | some item' =>
      have := ((hiff k item').mp hl).1
      rw [h] at this
      exact absurd this (by simp)
  · simp [MemoryCache.GetStats, MemoryCache.cleanup_entries]

/-- C22, at an instance: a cache holds three entries of expiry 5, 10 and 15; the sweep at
instant 10 removes the first one and keeps the other two. -/
theorem C22_sweep_witness :
    (Example.cacheThree.cleanup 10).items.lookup "a" = none
    ∧ (Example.cacheThree.cleanup 10).items.lookup "b"
        = some { value := Payload.other "y", expiresAt := 10 }
    ∧ (Example.cacheThree.cleanup 10).GetStats.1.Keys = 2 :=
  ⟨(C22_sweep Example.cacheThree 10).2.2.1 "a" { value := Payload.other "x", expiresAt := 5 }
      (by decide) (by decide),
   (C22_sweep Example.cacheThree 10).2.2.2.1 "b"
      { value := Payload.other "y", expiresAt := 10 } (by decide) (by decide),
   ((C22_sweep Example.cacheThree 10).2.2.2.2.2.2.2.2).trans (by decide)⟩

/-! ## The removal that a read schedules -/

/-- C23 (the code at the failing input): the cache holds under `k` an entry that expired
at instant 1.  A `Get` at instant 10 misses and schedules the removal of `k`; a `Set` at
instant 10 then stores a new value with TTL 100; before the removal runs a `Get` at
instant 11 returns the new value, and after it runs the key has no entry and the same
`Get` misses, although the new entry expires at 110.  The sweep at instant 11, which tests
`isExpired` before it deletes, keeps the new entry.  The same happens in the single-entity
query: it misses on an expired snapshot, caches the stored one, and the removal it
scheduled deletes what it cached. -/
theorem C23_deferred_removal_deletes_live_entry :
    (Example.worldExpired.run [CacheStep.callGet 10 "k"]).map (fun w => w.pending)
        = some ["k"]
    ∧ (Example.worldExpired.run
          [CacheStep.callGet 10 "k", CacheStep.callSet 10 "k" (Payload.other "new") 100]).map
          (fun w => (w.cache.Get 11 "k").value) = some (Payload.other "new")
    ∧ (Example.worldExpired.run
          [CacheStep.callGet 10 "k", CacheStep.callSet 10 "k" (Payload.other "new") 100,
            CacheStep.removal "k"]).map
          (fun w => (w.cache.Get 11 "k").value) = some Payload.nil
    ∧ (Example.worldExpired.run
          [CacheStep.callGet 10 "k", CacheStep.callSet 10 "k" (Payload.other "new") 100,
            CacheStep.removal "k"]).map
          (fun w => w.cache.items.lookup "k") = some none
    ∧ (Example.worldExpired.run
          [CacheStep.callExists 10 "k", CacheStep.callSet 10 "k" (Payload.other "new") 100,
            CacheStep.removal "k"]).map
          (fun w => (w.cache.Get 11 "k").value) = some Payload.nil
    ∧ (Example.worldExpired.run
          [CacheStep.callGet 10 "k", CacheStep.callSet 10 "k" (Payload.other "new") 100,
            CacheStep.sweep 11]).map
          (fun w => (w.cache.Get 11 "k").value) = some (Payload.other "new")
    ∧ (GetCurrencyHandler.Handle (Example.store [Example.eur 1]) Example.cacheExpiredEur 10
        ⟨"EUR", true⟩).spawned = ["currency:EUR"]
    ∧ (GetCurrencyHandler.Handle (Example.store [Example.eur 1])
        (GetCurrencyHandler.Handle (Example.store [Example.eur 1]) Example.cacheExpiredEur 10
          ⟨"EUR", true⟩).cache
        11 ⟨"EUR", true⟩).result.FromCache = true
    ∧ (GetCurrencyHandler.Handle (Example.store [Example.eur 1])
        ((GetCurrencyHandler.Handle (Example.store [Example.eur 1]) Example.cacheExpiredEur 10
          ⟨"EUR", true⟩).cache.runSpawned "currency:EUR")
        11 ⟨"EUR", true⟩).result.FromCache = false := by
  decide

/-! ## Overlapping calls of Get -/

/-- The two halves of `Get`, run without another call between them and with the counters
below the largest `int64`, are the `Get` of one step. -/
theorem MemoryCache.getStore_getLoad (c : MemoryCache) (now : Time) (key : String)
    (hh : -9223372036854775808 ≤ c.stats.Hits ∧ c.stats.Hits < 9223372036854775807)
    (hm : -9223372036854775808 ≤ c.stats.Misses ∧ c.stats.Misses < 9223372036854775807) :
    c.getStore (c.getLoad now key) = c.Get now key := by
  have wh : int64.wrap (c.stats.Hits + 1) = c.stats.Hits + 1 := by
    unfold int64.wrap; omega
  have wm : int64.wrap (c.stats.Misses + 1) = c.stats.Misses + 1 := by
    unfold int64.wrap; omega
  unfold MemoryCache.getLoad MemoryCache.getStore MemoryCache.Get
  cases h : c.items.lookup key with
  | none => simp [wm]
  | some item => cases hx : item.isExpired now <;> simp [hx, wh, wm]

/-- C21 (the code at the failing input): two calls of `Get` for a key without entry overlap
on the new cache: each reads `Misses = 0` under the read lock before the other writes.
Both return a miss, and after both have written `Misses` is 1, where two calls that do not
overlap leave 2: the second write changes no counter.  And a `Get` that read `Misses = 0`
and writes after two other calls have completed takes `Misses` from 2 down to 1, without
any `Clear`. -/
theorem C21_overlapping_gets_lose_a_count :
    (NewMemoryCache.getLoad 1 "k").loaded = 0
    ∧ (NewMemoryCache.getLoad 2 "k").loaded = 0
    ∧ (NewMemoryCache.getStore (NewMemoryCache.getLoad 1 "k")).value = Payload.nil
    ∧ (NewMemoryCache.getStore (NewMemoryCache.getLoad 1 "k")).cache.stats.Misses = 1
    ∧ ((NewMemoryCache.getStore (NewMemoryCache.getLoad 1 "k")).cache.getStore
        (NewMemoryCache.getLoad 2 "k")).value = Payload.nil
    ∧ ((NewMemoryCache.getStore (NewMemoryCache.getLoad 1 "k")).cache.getStore
        (NewMemoryCache.getLoad 2 "k")).cache.stats.Misses = 1
    ∧ ((NewMemoryCache.getStore (NewMemoryCache.getLoad 1 "k")).cache.getStore
        (NewMemoryCache.getLoad 2 "k")).cache.stats.Hits = 0
    ∧ ((NewMemoryCache.Get 1 "k").cache.Get 2 "k").cache.stats.Misses = 2
    ∧ ((NewMemoryCache.Get 2 "x").cache.Get 3 "y").cache.stats.Misses = 2
    ∧ (((NewMemoryCache.Get 2 "x").cache.Get 3 "y").cache.getStore
        (NewMemoryCache.getLoad 1 "k")).cache.stats.Misses = 1 := by
  decide

/-! ## The searches of the scraper follow the document order -/

mutual
/-- The search `findByID` returns the first node in document order that is an element
with the given id. -/
theorem BCVScraper.findByID_eq_find : ∀ (n : Node) (id : String),
    BCVScraper.findByID n id = n.preorder.find? (Node.hasID id)
  | .mk t d attrs cs, id => by
    rw [BCVScraper.findByID, Node.preorder, List.find?_cons,
      ← BCVScraper.findByIDChildren_eq_find cs id]
    by_cases h : t = NodeType.ElementNode ∧
        attrs.any (fun attr => decide (attr.Key = "id" ∧ attr.Val = id)) = true
    · have h2 : Node.hasID id (.mk t d attrs cs) = true := by
        simp only [Node.hasID, Node.Type, Node.Attr]
        rw [h.2, decide_eq_true h.1]
        rfl
      rw [if_pos h, h2]
    · have h2 : Node.hasID id (.mk t d attrs cs) = false := by
        simp only [Node.hasID, Node.Type, Node.Attr]
        by_cases ht : t = NodeType.ElementNode
        · cases hb : attrs.any (fun attr => decide (attr.Key = "id" ∧ attr.Val = id)) with
          | false => exact Bool.and_false _
          | true => exact absurd ⟨ht, hb⟩ h
        · rw [decide_eq_false ht]
          rfl
      rw [if_neg h, h2]
/-- The loop of `findByID` over the children returns the first such node among the nodes
of the children. -/
theorem BCVScraper.findByIDChildren_eq_find : ∀ (cs : List Node) (id : String),
    BCVScraper.findByIDChildren cs id = (Node.preorderChildren cs).find? (Node.hasID id)
  | [], id => by simp [BCVScraper.findByIDChildren, Node.preorderChildren]
  | child :: rest, id => by
    rw [BCVScraper.findByIDChildren, Node.preorderChildren, List.find?_append,
      ← BCVScraper.findByID_eq_find child id, ← BCVScraper.findByIDChildren_eq_find rest id]
    cases BCVScraper.findByID child id <;> simp
end

mutual
/-- The search `findByTag` returns the first node in document order that is an element
of the given tag. -/
theorem BCVScraper.findByTag_eq_find : ∀ (n : Node) (tagName : String),
    BCVScraper.findByTag n tagName = n.preorder.find? (Node.isTag tagName)
  | .mk t d attrs cs, tagName => by
    rw [BCVScraper.findByTag, Node.preorder, List.find?_cons,
      ← BCVScraper.findByTagChildren_eq_find cs tagName]
    by_cases h : t = NodeType.ElementNode ∧ d = tagName
    · have h2 : Node.isTag tagName (.mk t d attrs cs) = true := by
        simp only [Node.isTag, Node.Type, Node.Data]
        exact decide_eq_true h
      rw [if_pos h, h2]
    · have h2 : Node.isTag tagName (.mk t d attrs cs) = false := by
        simp only [Node.isTag, Node.Type, Node.Data]
        exact decide_eq_false h
      rw [if_neg h, h2]
/-- The loop of `findByTag` over the children returns the first such node among the nodes
of the children. -/
theorem BCVScraper.findByTagChildren_eq_find : ∀ (cs : List Node) (tagName : String),
    BCVScraper.findByTagChildren cs tagName
      = (Node.preorderChildren cs).find? (Node.isTag tagName)
  | [], tagName => by simp [BCVScraper.findByTagChildren, Node.preorderChildren]
  | child :: rest, tagName => by
    rw [BCVScraper.findByTagChildren, Node.preorderChildren, List.find?_append,
      ← BCVScraper.findByTag_eq_find child tagName,
      ← BCVScraper.findByTagChildren_eq_find rest tagName]
    cases BCVScraper.findByTag child tagName <;> simp
end

/-! ## The float parser on a comma decimal -/

/-- A decimal digit has a code from 48 to 57 and the value of its code minus 48. -/
theorem strconv.digit_bounds (c : Char) (h : (strconv.digitVal c).isSome = true) :
    48 ≤ c.toNat ∧ c.toNat ≤ 57 ∧ strconv.digitVal c = some (c.toNat - 48) := by
  unfold strconv.digitVal at h ⊢
  by_cases hc : 48 ≤ c.toNat ∧ c.toNat ≤ 57
  · exact ⟨hc.1, hc.2, by rw [if_pos hc]⟩
  · rw [if_neg hc] at h
    simp at h

/-- A decimal digit is no character whose code lies outside 48 to 57. -/
theorem strconv.digit_ne (c d : Char) (h : (strconv.digitVal c).isSome = true)
    (hd : d.toNat < 48 ∨ 57 < d.toNat) : c ≠ d := by
  intro e
  obtain ⟨h1, h2, _⟩ := strconv.digit_bounds c h
  rw [e] at h1 h2
  omega

/-- The loop `readDigits` on a run of digits followed by nothing or by a character that is
no digit: the number read, the count of digits, and what follows. -/
theorem strconv.readDigits_digits (ds rest : List Char)
    (hds : ∀ c ∈ ds, (strconv.digitVal c).isSome = true)
    (hrest : ∀ c, rest.head? = some c → strconv.digitVal c = none) :
    ∀ acc n, strconv.readDigits (ds ++ rest) acc n
      = (ds.foldl (fun a c => 10 * a + (c.toNat - 48)) acc, n + ds.length, rest) := by
  induction ds with
  | nil =>
    intro acc n
    cases rest with
    | nil => simp [strconv.readDigits]
    | cons c r =>
      have := hrest c rfl
      simp [strconv.readDigits, this]
  | cons d ds ih =>
    intro acc n
    obtain ⟨_, _, hv⟩ := strconv.digit_bounds d (hds d (List.mem_cons_self _ _))
    have ih2 := ih (fun c hc => hds c (List.mem_cons_of_mem _ hc))
    rw [List.cons_append, strconv.readDigits, hv]
    simp only []
    rw [ih2, List.foldl_cons, List.length_cons]
    congr 2
    omega

/-- The parser on a text that begins with a digit reads an unsigned decimal. -/
theorem strconv.parseFloat64_of_digit_head (d : Char) (tl : List Char)
    (hd : (strconv.digitVal d).isSome = true) :
    strconv.ParseFloat64 (String.mk (d :: tl)) = strconv.readDecimal false (d :: tl) := by
  have h1 : d ≠ '-' := strconv.digit_ne d '-' hd (by decide)
  have h2 : d ≠ '+' := strconv.digit_ne d '+' hd (by decide)
  have h3 : d ≠ 'i' := strconv.digit_ne d 'i' hd (by decide)
  have h4 : d ≠ 'n' := strconv.digit_ne d 'n' hd (by decide)
  have hm : (match d :: tl with
        | '-' :: t => (true, true, t)
        | '+' :: t => (true, false, t)
        | t => (false, false, t)) = (false, false, d :: tl) := by
    split
    · rename_i heq; exact absurd (List.cons.inj heq).1 h1
    · rename_i heq; exact absurd (List.cons.inj heq).1 h2
    · rfl
  have hl : strconv.lower d = d := by
    obtain ⟨b1, b2, _⟩ := strconv.digit_bounds d hd
    unfold strconv.lower
    rw [if_neg (by omega)]
  unfold strconv.ParseFloat64
  simp only [hm, List.map_cons, hl]
  split_ifs with ha hb
  · exfalso
    rcases ha with h | h <;> exact h3 (List.cons.inj h).1
  · exact absurd (List.cons.inj hb.1).1 h4
  · rfl

/-- The replacement of commas by points leaves a run of digits as it is. -/
theorem strings.replace_digits (ds : List Char)
    (hds : ∀ c ∈ ds, (strconv.digitVal c).isSome = true) :
    ds.map (fun c => if c = ',' then '.' else c) = ds := by
  induction ds with
  | nil => rfl
  | cons d ds ih =>
    have hne : d ≠ ',' := strconv.digit_ne d ',' (hds d (List.mem_cons_self _ _)) (by decide)
    rw [List.map_cons, if_neg hne, ih (fun c hc => hds c (List.mem_cons_of_mem _ hc))]

/-- The shape of a comma decimal: a non-empty run of digits, followed by nothing or by a
comma and a non-empty run of digits. -/
theorem commaDecimal.shape (s : String) (h : commaDecimal s = true) :
    (∀ c ∈ commaDecimal.whole s, (strconv.digitVal c).isSome = true)
    ∧ commaDecimal.whole s ≠ []
    ∧ (∀ c ∈ commaDecimal.frac s, (strconv.digitVal c).isSome = true)
    ∧ ((s.data = commaDecimal.whole s ∧ commaDecimal.frac s = [])
      ∨ (s.data = commaDecimal.whole s ++ ',' :: commaDecimal.frac s
          ∧ commaDecimal.frac s ≠ [])) := by
  have hsplit : s.data = commaDecimal.whole s
      ++ s.data.dropWhile (fun c => (strconv.digitVal c).isSome) :=
    (List.takeWhile_append_dropWhile _ _).symm
  have hw : ∀ c ∈ commaDecimal.whole s, (strconv.digitVal c).isSome = true := by
    intro c hc
    exact List.mem_takeWhile_imp (p := fun c => (strconv.digitVal c).isSome) hc
  unfold commaDecimal at h
  simp only [Bool.and_eq_true, Bool.or_eq_true, Bool.not_eq_true', beq_iff_eq,
    List.all_eq_true] at h
  obtain ⟨h1, h2⟩ := h
  have hne : commaDecimal.whole s ≠ [] := by
    intro e
    unfold commaDecimal.whole at e
    rw [e] at h1
    simp at h1
  rcases h2 with h2 | ⟨⟨h3, h4⟩, h5⟩
  · have hr : s.data.dropWhile (fun c => (strconv.digitVal c).isSome) = [] :=
      List.isEmpty_iff.mp h2
    refine ⟨hw, hne, ?_, Or.inl ⟨?_, ?_⟩⟩
    · intro c hc
      unfold commaDecimal.frac at hc
      rw [hr] at hc
      simp at hc
    · rw [hr, List.append_nil] at hsplit
      exact hsplit
    · unfold commaDecimal.frac
      rw [hr]
      rfl
  · cases hr : s.data.dropWhile (fun c => (strconv.digitVal c).isSome) with
    | nil => rw [hr] at h3; simp at h3
    | cons x r =>
      rw [hr] at h3 h4 h5
      simp only [List.head?_cons, Option.some.injEq, List.tail_cons] at h3 h4 h5
      have hf : commaDecimal.frac s = r := by
        unfold commaDecimal.frac
        rw [hr]
        rfl
      refine ⟨hw, hne, ?_, Or.inr ⟨?_, ?_⟩⟩
      · rw [hf]; exact h5
      · rw [hf, ← h3, ← hr]; exact hsplit
      · rw [hf]
        intro e
        rw [e] at h4
        simp at h4

/-- The decimal reader on a run of digits, a point and a run of digits: the binary64
nearest to the number they denote, or the range error. -/
theorem strconv.readDecimal_point (w f : List Char)
    (hw : ∀ c ∈ w, (strconv.digitVal c).isSome = true) (hwne : w ≠ [])
    (hf : ∀ c ∈ f, (strconv.digitVal c).isSome = true) :
    strconv.readDecimal false (w ++ '.' :: f)
      = match strconv.toFloat64 false (commaDecimal.digitsValue (w ++ f)) (10 ^ f.length) with
        | some v => .ok v
        | none => .error "value out of range" := by
  have h1 := strconv.readDigits_digits w ('.' :: f) hw
    (by intro c hc; simp at hc; rw [← hc]; decide) 0 0
  have h2 := strconv.readDigits_digits f [] hf (by intro c hc; simp at hc)
    (w.foldl (fun a c => 10 * a + (c.toNat - 48)) 0) 0
  rw [List.append_nil] at h2
  have hlen : w.length ≠ 0 := fun e => hwne (List.length_eq_zero.mp e)
  unfold strconv.readDecimal
  rw [h1]
  simp only []
  rw [h2]
  simp only []
  have e1 : (0 - ((0 + f.length : Nat) : Int)).toNat = 0 := by omega
  have e2 : (-(0 - ((0 + f.length : Nat) : Int))).toNat = f.length := by omega
  rw [if_neg (by omega), e1, e2, pow_zero, Nat.mul_one]
  unfold commaDecimal.digitsValue
  rw [List.foldl_append]

/-- The decimal reader on a run of digits alone. -/
theorem strconv.readDecimal_whole (w : List Char)
    (hw : ∀ c ∈ w, (strconv.digitVal c).isSome = true) (hwne : w ≠ []) :
    strconv.readDecimal false w
      = match strconv.toFloat64 false (commaDecimal.digitsValue w) 1 with
        | some v => .ok v
        | none => .error "value out of range" := by
  have h1 := strconv.readDigits_digits w [] hw (by intro c hc; simp at hc) 0 0
  rw [List.append_nil] at h1
  have hlen : w.length ≠ 0 := fun e => hwne (List.length_eq_zero.mp e)
  unfold strconv.readDecimal
  rw [h1]
  simp only []
  have e1 : (0 - ((0 : Nat) : Int)).toNat = 0 := by omega
  have e2 : (-(0 - ((0 : Nat) : Int))).toNat = 0 := by omega
  rw [if_neg (by omega), e1, e2, pow_zero, Nat.mul_one]
  rfl

/-- The float parser on a comma decimal whose commas are replaced by points: the binary64
nearest to the number the numeral denotes, or the range error when the number is beyond
the range of `float64`. -/
theorem strconv.parseFloat64_commaDecimal (s : String) (h : commaDecimal s = true) :
    strconv.ParseFloat64 (strings.ReplaceAllCommaDot s)
      = match commaDecimal.toFloat64 s with
        | some v => .ok v
        | none => .error "value out of range" := by
  obtain ⟨hw, hwne, hf, hshape⟩ := commaDecimal.shape s h
  obtain ⟨d, tl, hd⟩ := List.exists_cons_of_ne_nil hwne
  have hdig : (strconv.digitVal d).isSome = true := hw d (by rw [hd]; exact List.mem_cons_self _ _)
  unfold strings.ReplaceAllCommaDot commaDecimal.toFloat64 commaDecimal.numerator
    commaDecimal.denominator
  rcases hshape with ⟨hs, hfe⟩ | ⟨hs, _⟩
  · rw [hs, strings.replace_digits _ hw, hfe, List.append_nil, List.length_nil, pow_zero]
    rw [← strconv.readDecimal_whole _ hw hwne, hd]
    exact strconv.parseFloat64_of_digit_head d tl hdig
  · have hmap : s.data.map (fun c => if c = ',' then '.' else c)
        = commaDecimal.whole s ++ '.' :: commaDecimal.frac s := by
      rw [hs, List.map_append, List.map_cons, strings.replace_digits _ hw,
        strings.replace_digits _ hf]
      rfl
    rw [hmap, ← strconv.readDecimal_point _ _ hw hwne hf, hd, List.cons_append]
    exact strconv.parseFloat64_of_digit_head d _ hdig

/-! ## Trimming -/

/-- The trimming of a text that neither begins nor ends with a space, between two runs of
spaces, is the text. -/
theorem strings.trimSpace_surrounded (ws1 body ws2 : List Char)
    (h1 : ∀ c ∈ ws1, unicode.IsSpace c = true) (h2 : ∀ c ∈ ws2, unicode.IsSpace c = true)
    (hbody : ∀ c ∈ body, unicode.IsSpace c = false) :
    strings.TrimSpace (String.mk (ws1 ++ body ++ ws2)) = String.mk body := by
  have keep : ∀ r : List Char, (∀ c, r.head? = some c → unicode.IsSpace c = false) →
      r.dropWhile unicode.IsSpace = r := by
    intro r hr
    cases r with
    | nil => rfl
    | cons x r =>
      have := hr x rfl
      simp [List.dropWhile, this]
  unfold strings.TrimSpace
  congr 1
  simp only []
  rw [List.append_assoc, List.dropWhile_append_of_pos h1]
  cases body with
  | nil =>
    rw [List.nil_append]
    have hall : ws2.dropWhile unicode.IsSpace = [] := by
      have := @List.dropWhile_append_of_pos Char unicode.IsSpace ws2 [] h2
      simpa using this
    rw [hall]
    rfl
  | cons b bs =>
    rw [keep ((b :: bs) ++ ws2) (by
      intro c hc
      simp at hc
      rw [← hc]
      exact hbody b (List.mem_cons_self _ _)), List.reverse_append,
      List.dropWhile_append_of_pos (by
        intro c hc
        exact h2 c (List.mem_reverse.mp hc)),
      keep (b :: bs).reverse (by
        intro c hc
        rw [List.head?_reverse] at hc
        exact hbody c (List.mem_of_getLast?_eq_some hc)), List.reverse_reverse]

/-- No character of a comma decimal is a space. -/
theorem commaDecimal.no_space (s : String) (h : commaDecimal s = true) :
    ∀ c ∈ s.data, unicode.IsSpace c = false := by
  obtain ⟨hw, _, hf, hshape⟩ := commaDecimal.shape s h
  have hdigit : ∀ c : Char, (strconv.digitVal c).isSome = true → unicode.IsSpace c = false := by
    intro c hc
    obtain ⟨b1, b2, _⟩ := strconv.digit_bounds c hc
    simp only [unicode.IsSpace, Bool.or_eq_false_iff, beq_eq_false_iff_ne, ne_eq,
      Bool.and_eq_false_iff, decide_eq_false_iff_not]
    omega
  intro c hc
  rcases hshape with ⟨hs, _⟩ | ⟨hs, _⟩
  · rw [hs] at hc
    exact hdigit c (hw c hc)
  · rw [hs, List.mem_append, List.mem_cons] at hc
    rcases hc with hc | hc | hc
    · exact hdigit c (hw c hc)
    · rw [hc]; decide
    · exact hdigit c (hf c hc)

/-! ## The extraction of the two rates -/

/-- The extraction under an anchor whose first `strong` element, in document order, has a
first child that carries a comma decimal between spaces: the binary64 the numeral denotes,
or an error when the number is beyond the range. -/
theorem BCVScraper.extract_commaDecimal (bodyNode box strong child : Node)
    (currencyID : String) (s : String) (before after : List Char)
    (h1 : bodyNode.preorder.find? (Node.hasID currencyID) = some box)
    (h2 : box.preorder.find? (Node.isTag "strong") = some strong)
    (h3 : strong.children.head? = some child)
    (h4 : child.Data = String.mk (before ++ s.data ++ after))
    (h5 : ∀ c ∈ before, unicode.IsSpace c = true)
    (h6 : ∀ c ∈ after, unicode.IsSpace c = true)
    (h7 : commaDecimal s = true) :
    (∀ v, commaDecimal.toFloat64 s = some v →
      BCVScraper.extractCurrencyValue strconv.ParseFloat64 bodyNode currencyID = .ok v)
    ∧ (commaDecimal.toFloat64 s = none →
      ∃ e, BCVScraper.extractCurrencyValue strconv.ParseFloat64 bodyNode currencyID
        = .error e) := by
  have htrim : strings.TrimSpace child.Data = s := by
    rw [h4, strings.trimSpace_surrounded before s.data after h5 h6
      (commaDecimal.no_space s h7)]
  have hparse := strconv.parseFloat64_commaDecimal s h7
  have hid : BCVScraper.findByID bodyNode currencyID = some box := by
    rw [BCVScraper.findByID_eq_find, h1]
  have htag : BCVScraper.findByTag box "strong" = some strong := by
    rw [BCVScraper.findByTag_eq_find, h2]
  have hchild : strong.FirstChild = some child := h3
  constructor
  · intro v hv
    rw [hv] at hparse
    exact (BCVScraper.extractCurrencyValue_ok_iff strconv.ParseFloat64 bodyNode currencyID
      v).mpr ⟨box, strong, child, hid, htag, hchild, by rw [htrim]; exact hparse⟩
  · intro hnone
    rw [hnone] at hparse
    simp [BCVScraper.extractCurrencyValue, hid, htag, hchild, htrim, hparse]

set_option maxRecDepth 100000 in
set_option exponentiation.threshold 2000 in
/-- C16 (as stated, refuted), in two ways.  The `euro` anchor carries a decimal numeral, 1
followed by 309 zeros, a comma and 5: the number is beyond the range of `float64`, the
parser refuses it, and the scrape yields USD alone.  And the `euro` anchor holds two
`strong` elements, the label `EUR` and then the rate `144,37320000`: the extraction reads
the first `strong` element only, fails on the label, and the scrape yields USD alone. -/
theorem C16_euro_is_dropped :
    commaDecimal Example.hugeNumeral = true
    ∧ commaDecimal "168,34059493" = true
    ∧ commaDecimal.toFloat64 Example.hugeNumeral = none
    ∧ (BCVScraper.scrapeDoc strconv.ParseFloat64 0 Example.pageHugeEuro).toOption
        = some [Example.usd 0]
    ∧ ((Example.pageTwoStrong.preorder.find? (Node.hasID "euro")).map
        (fun box => (box.preorder.filter (Node.isTag "strong")).map
          (fun n => n.children.map Node.Data))) = some [["EUR"], [" 144,37320000 "]]
    ∧ commaDecimal "144,37320000" = true
    ∧ (BCVScraper.scrapeDoc strconv.ParseFloat64 0 Example.pageTwoStrong).toOption
        = some [Example.usd 0] := by
  decide

/-- C16 (amended): in the first `body` element of the document, the first element in
document order with id `euro` has, as the first `strong` element in document order under
it (itself included), one whose first child carries a text made of a comma decimal `s`
between runs of spaces, and the number `s` denotes is within the range of `float64`, with
nearest binary64 `v`; likewise under id `dolar` with numeral `t` and value `w`.  Then the
extraction yields exactly the two entities EUR then USD, named `Euro` and
`Dólar Americano`, with values `v` and `w`; so does `ScrapeCurrencies` on a site that serves
the document. -/
theorem C16_extraction_of_both (now : Time) (site : Site)
    (doc body euroBox euroStrong euroText dolarBox dolarStrong dolarText : Node)
    (s t : String) (sBefore sAfter tBefore tAfter : List Char) (v w : float64)
    (hbody : doc.preorder.find? (Node.isTag "body") = some body)
    (he1 : body.preorder.find? (Node.hasID "euro") = some euroBox)
    (he2 : euroBox.preorder.find? (Node.isTag "strong") = some euroStrong)
    (he3 : euroStrong.children.head? = some euroText)
    (he4 : euroText.Data = String.mk (sBefore ++ s.data ++ sAfter))
    (he5 : ∀ c ∈ sBefore, unicode.IsSpace c = true)
    (he6 : ∀ c ∈ sAfter, unicode.IsSpace c = true)
    (he7 : commaDecimal s = true)
    (he8 : commaDecimal.toFloat64 s = some v)
    (hd1 : body.preorder.find? (Node.hasID "dolar") = some dolarBox)
    (hd2 : dolarBox.preorder.find? (Node.isTag "strong") = some dolarStrong)
    (hd3 : dolarStrong.children.head? = some dolarText)
    (hd4 : dolarText.Data = String.mk (tBefore ++ t.data ++ tAfter))
    (hd5 : ∀ c ∈ tBefore, unicode.IsSpace c = true)
    (hd6 : ∀ c ∈ tAfter, unicode.IsSpace c = true)
    (hd7 : commaDecimal t = true)
    (hd8 : commaDecimal.toFloat64 t = some w) :
    BCVScraper.scrapeDoc strconv.ParseFloat64 now doc
        = .ok [{ ID := "EUR", Name := "Euro", Value := v, UpdatedAt := now
                 Source := BCVScraper.baseURL },
               { ID := "USD", Name := "Dólar Americano", Value := w, UpdatedAt := now
                 Source := BCVScraper.baseURL }]
    ∧ (BCVScraper.getHTML site = .ok (.ok doc) →
        BCVScraper.ScrapeCurrencies strconv.ParseFloat64 now site
          = .ok [{ ID := "EUR", Name := "Euro", Value := v, UpdatedAt := now
                   Source := BCVScraper.baseURL },
                 { ID := "USD", Name := "Dólar Americano", Value := w, UpdatedAt := now
                   Source := BCVScraper.baseURL }]) := by
  have heuro := (BCVScraper.extract_commaDecimal body euroBox euroStrong euroText "euro" s
    sBefore sAfter he1 he2 he3 he4 he5 he6 he7).1 v he8
  have hdolar := (BCVScraper.extract_commaDecimal body dolarBox dolarStrong dolarText "dolar"
    t tBefore tAfter hd1 hd2 hd3 hd4 hd5 hd6 hd7).1 w hd8
  have hb : BCVScraper.findByTag doc "body" = some body := by
    rw [BCVScraper.findByTag_eq_find, hbody]
  have hdoc : BCVScraper.scrapeDoc strconv.ParseFloat64 now doc
      = .ok [{ ID := "EUR", Name := "Euro", Value := v, UpdatedAt := now
               Source := BCVScraper.baseURL },
             { ID := "USD", Name := "Dólar Americano", Value := w, UpdatedAt := now
               Source := BCVScraper.baseURL }] := by
    simp [BCVScraper.scrapeDoc, hb, heuro, hdolar, NewCurrency]
  refine ⟨hdoc, ?_⟩
  intro hget
  simp [BCVScraper.ScrapeCurrencies, hget, hdoc]

/-- C16 (amended), at an instance: the page carries `144,37320000` under `euro` and
`168,34059493` under `dolar`, each between blanks; the extraction yields EUR at 144.3732
and USD at 168.34059493. -/
theorem C16_extraction_of_both_witness :
    commaDecimal "144,37320000" = true
    ∧ commaDecimal.toFloat64 "144,37320000" = some Example.rate144
    ∧ commaDecimal.toFloat64 "168,34059493" = some Example.rate168
    ∧ BCVScraper.scrapeDoc strconv.ParseFloat64 7 Example.pageBoth
      = .ok [Example.eur 7, Example.usd 7] :=
  ⟨by decide, by decide, by decide,
   (C16_extraction_of_both 7 (Example.site Example.pageBoth)
    Example.pageBoth
    (.mk .ElementNode "body" []
      [Example.anchor "euro" " 144,37320000 ", Example.anchor "dolar" " 168,34059493 "])
    (Example.anchor "euro" " 144,37320000 ")
    (.mk .ElementNode "strong" [] [.mk .TextNode " 144,37320000 " [] []])
    (.mk .TextNode " 144,37320000 " [] [])
    (Example.anchor "dolar" " 168,34059493 ")
    (.mk .ElementNode "strong" [] [.mk .TextNode " 168,34059493 " [] []])
    (.mk .TextNode " 168,34059493 " [] [])
    "144,37320000" "168,34059493" [' '] [' '] [' '] [' ']
    Example.rate144 Example.rate168
    (by rfl) (by rfl) (by rfl) (by rfl) (by decide) (by decide) (by decide) (by decide)
    (by decide)
    (by rfl) (by rfl) (by rfl) (by decide) (by decide) (by decide) (by decide)
    (by decide)).1⟩
